import Mathlib

/-!
Shallow embedding of the core of the `newsite` event-ticketing application
(src/core/models.py and src/core/views.py) and proofs of its specified
properties.

Conventions of the embedding:
* database rows become records in lists held by a single `St` state;
* primary keys, user emails and payment-session identifiers are `Nat`;
* datetimes in the shift grid are minutes since an arbitrary epoch;
* each Django view becomes a pure function `St -> ... -> Result × St`
  (a view either mutates and returns the new state, or returns the state
  unchanged together with the user-facing failure reason);
* the payment gateway (stripe) is a parameter: `payment_status sid = none`
  models the retrieve call raising an exception, `some true` models
  `payment_status == paid`.
-/

namespace Newsite

inductive OrderStatus where
  | pending
  | completed
  | cancelled
deriving DecidableEq, Repr

inductive TransferStatus where
  | pending
  | accepted
  | rejected
deriving DecidableEq, Repr

/-- core.models.Event (the fields the core logic reads). -/
structure Event where
  id : Nat
  is_active : Bool
  max_shifts_per_user : Nat
deriving DecidableEq, Repr

/-- core.models.TicketType. -/
structure TicketType where
  id : Nat
  event_id : Nat
  max_per_user : Nat
deriving DecidableEq, Repr

/-- core.models.Order. -/
structure Order where
  id : Nat
  ticket_type_id : Nat
  purchasing_user : Nat
  owning_user : Nat
  stripe_checkout_session_id : Nat
  stripe_payment_intent_id : Option Nat
  status : OrderStatus
deriving DecidableEq, Repr

/-- core.models.Transfer. -/
structure Transfer where
  id : Nat
  order_id : Nat
  from_user : Nat
  to_email : Nat
  to_user : Option Nat
  status : TransferStatus
deriving DecidableEq, Repr

/-- core.models.User (email is the login identity). -/
structure User where
  id : Nat
  email : Nat
deriving DecidableEq, Repr

/-- core.models.Role. -/
structure Role where
  id : Nat
  event_id : Nat
deriving DecidableEq, Repr

/-- core.models.Shift; times are minutes. -/
structure Shift where
  id : Nat
  role_id : Nat
  start_time : Nat
  end_time : Nat
  capacity : Nat
deriving DecidableEq, Repr

/-- The entity store: one record list per model, plus primary-key /
session-id counters and a counter of payment-gateway session creations
(observable side effect of `stripe.checkout.Session.create`). -/
structure St where
  events : List Event
  ticket_types : List TicketType
  orders : List Order
  transfers : List Transfer
  users : List User
  roles : List Role
  shifts : List Shift
  assignments : List (Nat × Nat)
  next_order_id : Nat
  next_transfer_id : Nat
  next_session_id : Nat
  stripe_sessions_created : Nat
deriving DecidableEq, Repr

/-- Event.get_active: the single active event, if any. -/
def get_active (s : St) : Option Event :=
  s.events.find? (fun e => e.is_active)

/-- TicketType lookup by primary key. -/
def findTicketType (s : St) (ttId : Nat) : Option TicketType :=
  s.ticket_types.find? (fun t => decide (t.id = ttId))

/-- Order lookup by primary key. -/
def findOrder (s : St) (oid : Nat) : Option Order :=
  s.orders.find? (fun o => decide (o.id = oid))

/-- Transfer lookup by primary key. -/
def findTransfer (s : St) (tid : Nat) : Option Transfer :=
  s.transfers.find? (fun t => decide (t.id = tid))

/-- event.ticket_types.all(): the ticket types of an event, in store order. -/
def eventTicketTypes (s : St) (e : Event) : List TicketType :=
  s.ticket_types.filter (fun t => decide (t.event_id = e.id))

/-- Order.objects.filter(ticket_type=tt, owning_user=u,
status__in=['completed','pending']).count() — the count both limit checks
are computed from. -/
def countOrders (s : St) (uid ttId : Nat) : Nat :=
  s.orders.countP (fun o => decide (o.ticket_type_id = ttId ∧ o.owning_user = uid ∧
    (o.status = OrderStatus.completed ∨ o.status = OrderStatus.pending)))

/-! ## create_checkout_session (views.py 74-146) -/

/-- The quantity_<id> POST parameters, as a map from ticket-type id to the
parsed integer (missing parameters parse as 0, so the map is total). -/
def Quantities := Nat → Int

/-- The line_items list accumulated in the first loop of
create_checkout_session: one (ticket-type id, quantity) pair per ticket type
of the active event whose requested quantity is positive. -/
def lineItems (s : St) (e : Event) (qty : Quantities) : List (Nat × Nat) :=
  (eventTicketTypes s e).filterMap (fun t =>
    if qty t.id > 0 then some (t.id, (qty t.id).toNat) else none)

/-- The tickets_to_create list: each positive-quantity ticket type repeated
quantity-many times (one entry per individual ticket unit). -/
def ticketsToCreate (s : St) (e : Event) (qty : Quantities) : List TicketType :=
  (eventTicketTypes s e).flatMap (fun t =>
    if qty t.id > 0 then List.replicate (qty t.id).toNat t else [])

/-- The requested_counts dict of create_checkout_session: how many units of a
given ticket type appear in tickets_to_create. -/
def requestedCount (s : St) (e : Event) (qty : Quantities) (ttId : Nat) : Nat :=
  (ticketsToCreate s e qty).countP (fun t => decide (t.id = ttId))

/-- The limit-check loop: the first ticket type of the event (in store order)
for which existing + requested > max_per_user, if any. -/
def exceededType (s : St) (uid : Nat) (e : Event) (qty : Quantities) : Option TicketType :=
  (eventTicketTypes s e).find? (fun t =>
    decide (countOrders s uid t.id + requestedCount s e qty t.id > t.max_per_user))

/-- The order-creation loop: one pending Order per entry of tickets_to_create,
primary keys assigned consecutively, all rows sharing the session id. -/
def mkOrders : List TicketType → Nat → Nat → Nat → List Order
  | [], _, _, _ => []
  | t :: rest, nextId, uid, sid =>
      { id := nextId, ticket_type_id := t.id, purchasing_user := uid,
        owning_user := uid, stripe_checkout_session_id := sid,
        stripe_payment_intent_id := none, status := OrderStatus.pending }
        :: mkOrders rest (nextId + 1) uid sid

inductive CheckoutResult where
  | noActiveEvent
  | selectAtLeastOne
  | limitExceeded (ttId max_per_user existing : Nat) (remaining : Int)
  | ok (sessionId : Nat)
deriving DecidableEq, Repr

/-- views.create_checkout_session: check the active event, parse quantities,
reject an empty selection, run the per-type limit check, then create one
stripe session and one pending Order per requested ticket unit. -/
def create_checkout_session (s : St) (u : User) (qty : Quantities) :
    CheckoutResult × St :=
  match get_active s with
  | none => (CheckoutResult.noActiveEvent, s)
  | some e =>
    if lineItems s e qty = [] then (CheckoutResult.selectAtLeastOne, s)
    else
      match exceededType s u.id e qty with
      | some t =>
          (CheckoutResult.limitExceeded t.id t.max_per_user (countOrders s u.id t.id)
            (max 0 ((t.max_per_user : Int) - (countOrders s u.id t.id : Int))), s)
      | none =>
          let sid := s.next_session_id
          let created := ticketsToCreate s e qty
          (CheckoutResult.ok sid,
            { s with
              orders := s.orders ++ mkOrders created s.next_order_id u.id sid,
              next_order_id := s.next_order_id + created.length,
              next_session_id := sid + 1,
              stripe_sessions_created := s.stripe_sessions_created + 1 })

/-! ## checkout_success (views.py 149-167) -/

/-- The stripe client, as seen by checkout_success: retrieving a session
yields its payment status (`none` models the retrieve call raising, which the
view swallows) and its payment intent. -/
structure Gateway where
  payment_status : Nat → Option Bool
  payment_intent : Nat → Nat

/-- views.checkout_success: if a session id is supplied and the gateway
reports it paid, flip every pending Order of that session to completed,
recording the payment intent; any gateway failure is swallowed. -/
def checkout_success (gw : Gateway) (s : St) (sessionId? : Option Nat) : St :=
  match sessionId? with
  | none => s
  | some sid =>
    match gw.payment_status sid with
    | none => s
    | some paid =>
      if paid then
        { s with orders := s.orders.map (fun o =>
            if o.stripe_checkout_session_id = sid ∧ o.status = OrderStatus.pending then
              { o with status := OrderStatus.completed,
                       stripe_payment_intent_id := some (gw.payment_intent sid) }
            else o) }
      else s

/-! ## transfer_ticket (views.py 207-256) -/

/-- Transfer.objects.filter(order=order, status='pending').exists(). -/
def pendingTransferForOrder (s : St) (oid : Nat) : Bool :=
  s.transfers.any (fun t => decide (t.order_id = oid ∧ t.status = TransferStatus.pending))

/-- Transfer.objects.filter(to_email=e, order__ticket_type=tt,
status='pending').count(). -/
def pendingTransfersToEmail (s : St) (email ttId : Nat) : Nat :=
  s.transfers.countP (fun t => decide (t.to_email = email ∧ t.status = TransferStatus.pending ∧
    (findOrder s t.order_id).map Order.ticket_type_id = some ttId))

inductive TransferResult where
  | notFound
  | alreadyPending
  | emptyEmail
  | selfTransfer
  | noSuchUser
  | recipientLimit
  | ok
deriving DecidableEq, Repr

/-- views.transfer_ticket: initiate a transfer of a completed owned order to
a registered recipient, applying the recipient-side limit check before the
Transfer row is created. An empty to_email parameter is modelled as `none`. -/
def transfer_ticket (s : St) (u : User) (orderId : Nat) (toEmail? : Option Nat) :
    TransferResult × St :=
  match s.orders.find? (fun o => decide (o.id = orderId ∧ o.owning_user = u.id ∧
      o.status = OrderStatus.completed)) with
  | none => (TransferResult.notFound, s)
  | some order =>
    if pendingTransferForOrder s order.id then (TransferResult.alreadyPending, s)
    else
      match toEmail? with
      | none => (TransferResult.emptyEmail, s)
      | some toEmail =>
        if toEmail = u.email then (TransferResult.selfTransfer, s)
        else
          match s.users.find? (fun v => decide (v.email = toEmail)) with
          | none => (TransferResult.noSuchUser, s)
          | some toUser =>
            match findTicketType s order.ticket_type_id with
            | none => (TransferResult.notFound, s)
            | some tt =>
              if countOrders s toUser.id order.ticket_type_id
                  + pendingTransfersToEmail s toEmail order.ticket_type_id
                  ≥ tt.max_per_user then
                (TransferResult.recipientLimit, s)
              else
                (TransferResult.ok,
                  { s with
                    transfers := s.transfers ++
                      [{ id := s.next_transfer_id, order_id := order.id,
                         from_user := u.id, to_email := toEmail,
                         to_user := some toUser.id, status := TransferStatus.pending }],
                    next_transfer_id := s.next_transfer_id + 1 })

/-! ## accept / reject / rescind transfer (views.py 259-324) -/

inductive AcceptResult where
  | notFound
  | limitReached
  | ok
deriving DecidableEq, Repr

/-- views.accept_transfer: re-run the acceptor-side limit check against the
acceptor's current completed+pending count, then reassign the order and mark
the transfer accepted in one step. -/
def accept_transfer (s : St) (u : User) (transferId : Nat) : AcceptResult × St :=
  match s.transfers.find? (fun t => decide (t.id = transferId ∧ t.to_email = u.email ∧
      t.status = TransferStatus.pending)) with
  | none => (AcceptResult.notFound, s)
  | some tr =>
    match findOrder s tr.order_id with
    | none => (AcceptResult.notFound, s)
    | some order =>
      match findTicketType s order.ticket_type_id with
      | none => (AcceptResult.notFound, s)
      | some tt =>
        if countOrders s u.id order.ticket_type_id ≥ tt.max_per_user then
          (AcceptResult.limitReached, s)
        else
          (AcceptResult.ok,
            { s with
              orders := s.orders.map (fun o =>
                if o.id = order.id then { o with owning_user := u.id } else o),
              transfers := s.transfers.map (fun t =>
                if t.id = tr.id then
                  { t with to_user := some u.id, status := TransferStatus.accepted }
                else t) })

/-- views.reject_transfer. -/
def reject_transfer (s : St) (u : User) (transferId : Nat) : AcceptResult × St :=
  match s.transfers.find? (fun t => decide (t.id = transferId ∧ t.to_email = u.email ∧
      t.status = TransferStatus.pending)) with
  | none => (AcceptResult.notFound, s)
  | some tr =>
    (AcceptResult.ok,
      { s with transfers := s.transfers.map (fun t =>
          if t.id = tr.id then { t with status := TransferStatus.rejected } else t) })

/-- views.rescind_transfer: a hard delete of the pending outgoing transfer. -/
def rescind_transfer (s : St) (u : User) (transferId : Nat) : AcceptResult × St :=
  match s.transfers.find? (fun t => decide (t.id = transferId ∧ t.from_user = u.id ∧
      t.status = TransferStatus.pending)) with
  | none => (AcceptResult.notFound, s)
  | some tr =>
    (AcceptResult.ok,
      { s with transfers := s.transfers.filter (fun t => decide (t.id ≠ tr.id)) })

/-! ## shift signup / cancel (views.py 461-525) -/

/-- Role lookup by primary key. -/
def findRole (s : St) (rid : Nat) : Option Role :=
  s.roles.find? (fun r => decide (r.id = rid))

/-- The event a shift belongs to, through its role. -/
def shiftEventId (s : St) (sh : Shift) : Option Nat :=
  (findRole s sh.role_id).map Role.event_id

/-- Order.objects.filter(ticket_type__event=event, owning_user=u,
status='completed').exists(). -/
def hasTicket (s : St) (uid : Nat) (e : Event) : Bool :=
  s.orders.any (fun o => decide (o.owning_user = uid ∧ o.status = OrderStatus.completed ∧
    (findTicketType s o.ticket_type_id).map TicketType.event_id = some e.id))

/-- ShiftAssignment.objects.filter(user=u, shift__role__event=event).count(). -/
def userShiftCount (s : St) (uid : Nat) (e : Event) : Nat :=
  s.assignments.countP (fun a => decide (a.2 = uid ∧
    ((s.shifts.find? (fun sh => decide (sh.id = a.1))).bind (shiftEventId s)) = some e.id))

/-- get_object_or_404(Shift, id=shift_id, role__event=event). -/
def findShift (s : St) (e : Event) (shiftId : Nat) : Option Shift :=
  s.shifts.find? (fun sh => decide (sh.id = shiftId ∧ shiftEventId s sh = some e.id))

/-- ShiftAssignment.objects.filter(shift=sh, user=u).count(), the count
Shift.spots_remaining is derived from (models.py 161-163 counts all
assignments of the shift, i.e. over all users). -/
def assignmentCount (s : St) (shiftId : Nat) : Nat :=
  s.assignments.countP (fun a => decide (a.1 = shiftId))

/-- Shift.spots_remaining: capacity minus the current assignment count,
re-derived from the store on every call. -/
def spots_remaining (s : St) (sh : Shift) : Int :=
  (sh.capacity : Int) - (assignmentCount s sh.id : Int)

inductive SignupResult where
  | noActiveEvent
  | ticketRequired
  | shiftLimitReached
  | notFound
  | alreadySignedUp
  | shiftFull
  | ok
deriving DecidableEq, Repr

/-- views.shift_signup, with its checks in source order: active event,
ticket possession, per-event shift cap, shift resolution, duplicate signup,
remaining capacity. -/
def shift_signup (s : St) (u : User) (shiftId : Nat) : SignupResult × St :=
  match get_active s with
  | none => (SignupResult.noActiveEvent, s)
  | some e =>
    if ¬ hasTicket s u.id e then (SignupResult.ticketRequired, s)
    else if e.max_shifts_per_user > 0 ∧ userShiftCount s u.id e ≥ e.max_shifts_per_user then
      (SignupResult.shiftLimitReached, s)
    else
      match findShift s e shiftId with
      | none => (SignupResult.notFound, s)
      | some sh =>
        if s.assignments.any (fun a => decide (a.1 = sh.id ∧ a.2 = u.id)) then
          (SignupResult.alreadySignedUp, s)
        else if spots_remaining s sh ≤ 0 then (SignupResult.shiftFull, s)
        else (SignupResult.ok, { s with assignments := s.assignments ++ [(sh.id, u.id)] })

inductive CancelResult where
  | noActiveEvent
  | notFound
  | notSignedUp
  | ok
deriving DecidableEq, Repr

/-- views.shift_cancel: delete the caller's assignment for the shift
(the first matching row, mirroring filter(...).first().delete()). -/
def shift_cancel (s : St) (u : User) (shiftId : Nat) : CancelResult × St :=
  match get_active s with
  | none => (CancelResult.noActiveEvent, s)
  | some e =>
    match findShift s e shiftId with
    | none => (CancelResult.notFound, s)
    | some sh =>
      if s.assignments.any (fun a => decide (a.1 = sh.id ∧ a.2 = u.id)) then
        (CancelResult.ok,
          { s with assignments := s.assignments.eraseP (fun a => decide (a.1 = sh.id ∧ a.2 = u.id)) })
      else (CancelResult.notSignedUp, s)

/-! ## the schedule grid builder (views.py 380-448)

The grid part of the shifts view is a pure computation over the list of the
event's shifts and roles; times are minutes, so replace(minute=0, ...) is
truncation to a multiple of 60. -/

/-- dt.replace(minute=0, second=0, microsecond=0): truncate to the hour. -/
def truncHour (t : Nat) : Nat := t - t % 60

/-- The rounding applied to end times: truncate to the hour, then add one
hour only when the time lay strictly above the truncation. -/
def roundUpHour (t : Nat) : Nat :=
  if t > truncHour t then truncHour t + 60 else truncHour t

/-- The while loop `current = lo; while current < hi: append; current += 1h`. -/
def hoursBetween (cur hi : Nat) : List Nat :=
  if cur < hi then cur :: hoursBetween (cur + 60) hi else []
termination_by hi - cur
decreasing_by omega

/-- min(s.start_time for s in all_shifts); 0 on an empty list, which the
view never reaches (it returns an empty grid first). -/
def minStartTime : List Shift → Nat
  | [] => 0
  | sh :: rest => rest.foldl (fun m x => min m x.start_time) sh.start_time

/-- max(s.end_time for s in all_shifts). -/
def maxEndTime : List Shift → Nat
  | [] => 0
  | sh :: rest => rest.foldl (fun m x => max m x.end_time) sh.end_time

/-- The hour rows of the grid: every hour in [min_hour, max_hour). -/
def gridHours (shifts : List Shift) : List Nat :=
  hoursBetween (truncHour (minStartTime shifts)) (roundUpHour (maxEndTime shifts))

/-- The hour slots a single shift covers (the inner while loop of the
role_hour_shift construction). -/
def occupiedHours (sh : Shift) : List Nat :=
  hoursBetween (truncHour sh.start_time) (roundUpHour sh.end_time)

/-- The insertions into the role_hour_shift dict, in execution order. -/
def roleHourEntries (shifts : List Shift) : List ((Nat × Nat) × Shift) :=
  shifts.flatMap (fun sh => (occupiedHours sh).map (fun h => ((sh.role_id, h), sh)))

/-- role_hour_shift.get((role_id, hour)): dict semantics, so the last
insertion for a key wins. -/
def roleHourLookup (shifts : List Shift) (key : Nat × Nat) : Option Shift :=
  ((roleHourEntries shifts).reverse.find? (fun en => decide (en.1 = key))).map Prod.snd

/-- The rowspan of a shift cell: whole hours between the truncated start and
the rounded-up end. -/
def rowspanOf (sh : Shift) : Nat :=
  (roundUpHour sh.end_time - truncHour sh.start_time) / 60

inductive Cell where
  | empty
  | shiftStart (shiftId : Nat) (rowspan : Nat) (is_signed_up : Bool)
  | shiftContinue
deriving DecidableEq, Repr

/-- The shift a cell displays, if any (shift_continue cells name none). -/
def cellShiftId : Cell → Option Nat
  | Cell.shiftStart i _ _ => some i
  | _ => none

/-- One cell of the grid: empty when no shift covers the (role, hour) slot,
shift_start at the shift's truncated start hour, shift_continue at its later
covered hours. user_assignments is the caller's set of signed-up shift ids. -/
def buildCell (shifts : List Shift) (user_assignments : List Nat)
    (roleId hour : Nat) : Cell :=
  match roleHourLookup shifts (roleId, hour) with
  | none => Cell.empty
  | some sh =>
    if hour = truncHour sh.start_time then
      Cell.shiftStart sh.id (rowspanOf sh) (user_assignments.contains sh.id)
    else Cell.shiftContinue

/-- The grid of the shifts view: one row per hour, one cell per role, empty
when the event has no roles or no shifts (the early returns of the view). -/
def buildGrid (shifts : List Shift) (roles : List Role)
    (user_assignments : List Nat) : List (Nat × List Cell) :=
  if roles = [] ∨ shifts = [] then []
  else (gridHours shifts).map (fun h =>
    (h, roles.map (fun r => buildCell shifts user_assignments r.id h)))

/-! ## operation sequences and store well-formedness -/

/-- The core ticket operations of the spec, executed sequentially. -/
inductive TicketOp where
  | checkout (u : User) (qty : Quantities)
  | finalize (gw : Gateway) (sessionId? : Option Nat)
  | initiate (u : User) (orderId : Nat) (toEmail? : Option Nat)
  | accept (u : User) (transferId : Nat)
  | reject (u : User) (transferId : Nat)
  | rescind (u : User) (transferId : Nat)

/-- Run one ticket operation, keeping only the resulting store. -/
def ticketStep (s : St) : TicketOp → St
  | TicketOp.checkout u qty => (create_checkout_session s u qty).2
  | TicketOp.finalize gw sid? => checkout_success gw s sid?
  | TicketOp.initiate u oid em? => (transfer_ticket s u oid em?).2
  | TicketOp.accept u tid => (accept_transfer s u tid).2
  | TicketOp.reject u tid => (reject_transfer s u tid).2
  | TicketOp.rescind u tid => (rescind_transfer s u tid).2

/-- The shift operations, executed sequentially. -/
inductive ShiftOp where
  | signup (u : User) (shiftId : Nat)
  | cancel (u : User) (shiftId : Nat)

/-- Run one shift operation, keeping only the resulting store. -/
def shiftStep (s : St) : ShiftOp → St
  | ShiftOp.signup u sid => (shift_signup s u sid).2
  | ShiftOp.cancel u sid => (shift_cancel s u sid).2

/-- Database well-formedness the relational store guarantees: primary keys
are unique and below the corresponding autoincrement counter. -/
def WF (s : St) : Prop :=
  (s.orders.map Order.id).Nodup ∧
  (∀ o ∈ s.orders, o.id < s.next_order_id) ∧
  (s.transfers.map Transfer.id).Nodup ∧
  (∀ t ∈ s.transfers, t.id < s.next_transfer_id) ∧
  (s.ticket_types.map TicketType.id).Nodup ∧
  (s.shifts.map Shift.id).Nodup

instance (s : St) : Decidable (WF s) := by
  unfold WF; infer_instance

/-- The shift-signup precondition order stated by the spec (section 4.5):
shift resolution second, before the ticket and cap checks. Written from the
spec's words, to be compared against the source-derived shift_signup. -/
def specSignupOrder (s : St) (u : User) (shiftId : Nat) : SignupResult × St :=
  match get_active s with
  | none => (SignupResult.noActiveEvent, s)
  | some e =>
    match findShift s e shiftId with
    | none => (SignupResult.notFound, s)
    | some sh =>
      if ¬ hasTicket s u.id e then (SignupResult.ticketRequired, s)
      else if e.max_shifts_per_user > 0 ∧ userShiftCount s u.id e ≥ e.max_shifts_per_user then
        (SignupResult.shiftLimitReached, s)
      else if s.assignments.any (fun a => decide (a.1 = sh.id ∧ a.2 = u.id)) then
        (SignupResult.alreadySignedUp, s)
      else if spots_remaining s sh ≤ 0 then (SignupResult.shiftFull, s)
      else (SignupResult.ok, { s with assignments := s.assignments ++ [(sh.id, u.id)] })

/-! ## concrete stores and shift lists used as witnesses and counterexamples -/

/-- A store with one active event, one ticket type (cap 2), a completed order
of user 1 and a pending order of user 2. -/
def stTicket : St :=
  { events := [⟨1, true, 0⟩],
    ticket_types := [⟨1, 1, 2⟩],
    orders := [⟨1, 1, 1, 1, 100, none, OrderStatus.completed⟩,
               ⟨2, 1, 2, 2, 101, none, OrderStatus.pending⟩],
    transfers := [],
    users := [⟨1, 10⟩, ⟨2, 20⟩],
    roles := [],
    shifts := [],
    assignments := [],
    next_order_id := 3, next_transfer_id := 1, next_session_id := 102,
    stripe_sessions_created := 2 }

/-- A store with a pending transfer of user 1's completed order to the email
of user 2. -/
def stTransfer : St :=
  { events := [⟨1, true, 0⟩],
    ticket_types := [⟨1, 1, 2⟩],
    orders := [⟨1, 1, 1, 1, 100, none, OrderStatus.completed⟩],
    transfers := [⟨1, 1, 1, 20, some 2, TransferStatus.pending⟩],
    users := [⟨1, 10⟩, ⟨2, 20⟩],
    roles := [],
    shifts := [],
    assignments := [],
    next_order_id := 2, next_transfer_id := 2, next_session_id := 101,
    stripe_sessions_created := 1 }

/-- A store where user 1 owns a completed order with no pending transfer, so
a transfer of it can be initiated. -/
def stInit : St :=
  { events := [⟨1, true, 0⟩],
    ticket_types := [⟨1, 1, 2⟩],
    orders := [⟨1, 1, 1, 1, 100, none, OrderStatus.completed⟩],
    transfers := [],
    users := [⟨1, 10⟩, ⟨2, 20⟩],
    roles := [],
    shifts := [],
    assignments := [],
    next_order_id := 2, next_transfer_id := 1, next_session_id := 101,
    stripe_sessions_created := 1 }

/-- A store with an active event and a shift, where user 1 holds no ticket;
shift id 99 does not exist. -/
def stC5 : St :=
  { events := [⟨1, true, 0⟩],
    ticket_types := [⟨1, 1, 2⟩],
    orders := [],
    transfers := [],
    users := [⟨1, 10⟩],
    roles := [⟨1, 1⟩],
    shifts := [⟨1, 1, 600, 660, 1⟩],
    assignments := [],
    next_order_id := 1, next_transfer_id := 1, next_session_id := 1,
    stripe_sessions_created := 0 }

/-- A store where ticket-holding user 1 can sign up for the capacity-1
shift 1. -/
def stShift : St :=
  { events := [⟨1, true, 0⟩],
    ticket_types := [⟨1, 1, 1⟩],
    orders := [⟨1, 1, 1, 1, 100, none, OrderStatus.completed⟩],
    transfers := [],
    users := [⟨1, 10⟩, ⟨2, 20⟩],
    roles := [⟨1, 1⟩],
    shifts := [⟨1, 1, 600, 660, 1⟩],
    assignments := [],
    next_order_id := 2, next_transfer_id := 1, next_session_id := 101,
    stripe_sessions_created := 1 }

/-- stShift with the single spot of shift 1 already taken by user 2. -/
def stShiftFull : St :=
  { stShift with assignments := [(1, 2)] }

/-- The spec's grid example: RoleA 10:00-12:00 and RoleA 12:30-13:00, as
minutes (600-720 and 750-780). -/
def exShifts : List Shift := [⟨1, 1, 600, 720, 1⟩, ⟨2, 1, 750, 780, 1⟩]

/-- A one-hour shift together with a zero-duration shift lying exactly on the
hour boundary 12:00 (minute 720). -/
def c6Shifts : List Shift := [⟨1, 1, 600, 720, 1⟩, ⟨2, 1, 720, 720, 1⟩]

/-- A one-hour shift together with a zero-duration boundary shift at 13:00
whose end time alone extends the grid's hour range. -/
def c9Shifts : List Shift := [⟨1, 1, 600, 660, 1⟩, ⟨2, 1, 780, 780, 1⟩]

/-- A single zero-duration shift at 10:30, not on an hour boundary. -/
def c9Shifts' : List Shift := [⟨3, 1, 630, 630, 1⟩]

/-! ## generic list lemmas -/

theorem countP_or_le {α : Type} (p q : α → Bool) (l : List α) :
    l.countP (fun a => p a || q a) ≤ l.countP p + l.countP q := by
  induction l with
  | nil => simp
  | cons a l ih =>
    simp only [List.countP_cons]
    cases hp : p a <;> cases hq : q a <;> simp [hp, hq] <;> omega

theorem countP_key_le_one {α : Type} (f : α → Nat) (k : Nat) (l : List α)
    (h : (l.map f).Nodup) : l.countP (fun a => decide (f a = k)) ≤ 1 := by
  induction l with
  | nil => simp
  | cons a l ih =>
    simp only [List.map_cons, List.nodup_cons] at h
    rw [List.countP_cons]
    by_cases hk : f a = k
    · have hz : l.countP (fun a => decide (f a = k)) = 0 := by
        rw [List.countP_eq_zero]
        intro x hx hfx
        rw [decide_eq_true_eq] at hfx
        exact h.1 (List.mem_map.mpr ⟨x, hx, by rw [hfx, hk]⟩)
      simp [hz, hk]
    · simpa [hk] using ih h.2

theorem eq_of_mem_of_nodup_key {α : Type} {f : α → Nat} {l : List α}
    (h : (l.map f).Nodup) {a b : α} (ha : a ∈ l) (hb : b ∈ l) (hf : f a = f b) :
    a = b :=
  List.inj_on_of_nodup_map h ha hb hf

/-! ## hour arithmetic and the hour-enumeration loop -/

theorem truncHour_le (t : Nat) : truncHour t ≤ t := by
  unfold truncHour; omega

theorem truncHour_mod (t : Nat) : truncHour t % 60 = 0 := by
  unfold truncHour; omega

theorem truncHour_mono {a b : Nat} (h : a ≤ b) : truncHour a ≤ truncHour b := by
  unfold truncHour; omega

theorem le_roundUpHour (t : Nat) : t ≤ roundUpHour t := by
  unfold roundUpHour truncHour; split <;> omega

theorem roundUpHour_mod (t : Nat) : roundUpHour t % 60 = 0 := by
  unfold roundUpHour truncHour; split <;> omega

theorem roundUpHour_mono {a b : Nat} (h : a ≤ b) : roundUpHour a ≤ roundUpHour b := by
  unfold roundUpHour truncHour; split <;> split <;> omega

theorem hoursBetween_eq_range (cur hi : Nat) :
    hoursBetween cur hi
      = (List.range ((hi - cur + 59) / 60)).map (fun i => cur + 60 * i) := by
  rw [hoursBetween]
  split
  · rename_i hlt
    have hn : (hi - cur + 59) / 60 = (hi - (cur + 60) + 59) / 60 + 1 := by omega
    rw [hoursBetween_eq_range (cur + 60) hi, hn, List.range_succ_eq_map]
    simp only [List.map_cons, List.map_map, Nat.mul_zero, Nat.add_zero]
    congr 1
    apply List.map_congr_left
    intro i _
    simp only [Function.comp_apply]
    omega
  · rename_i hge
    have h0 : (hi - cur + 59) / 60 = 0 := by omega
    rw [h0]
    simp
termination_by hi - cur
decreasing_by omega

theorem hoursBetween_eq_nil {cur hi : Nat} (h : hi ≤ cur) : hoursBetween cur hi = [] := by
  rw [hoursBetween_eq_range]
  have h0 : (hi - cur + 59) / 60 = 0 := by omega
  rw [h0]; rfl

theorem mem_hoursBetween {cur hi h : Nat} (hc : cur % 60 = 0) (hh : hi % 60 = 0) :
    h ∈ hoursBetween cur hi ↔ cur ≤ h ∧ h < hi ∧ h % 60 = 0 := by
  rw [hoursBetween_eq_range]
  simp only [List.mem_map, List.mem_range]
  constructor
  · rintro ⟨i, hi', rfl⟩
    omega
  · rintro ⟨h1, h2, h3⟩
    exact ⟨(h - cur) / 60, by omega, by omega⟩

theorem length_hoursBetween (cur hi : Nat) :
    (hoursBetween cur hi).length = (hi - cur + 59) / 60 := by
  rw [hoursBetween_eq_range]
  simp

theorem pairwise_hoursBetween (cur hi : Nat) :
    List.Pairwise (· < ·) (hoursBetween cur hi) := by
  rw [hoursBetween_eq_range]
  refine List.Pairwise.map _ (fun a b hab => ?_) (List.pairwise_lt_range _)
  omega

/-! ## min / max over the shift list -/

theorem foldl_min_le_init (l : List Shift) (a : Nat) :
    l.foldl (fun m x => min m x.start_time) a ≤ a := by
  induction l generalizing a with
  | nil => simp
  | cons x l ih =>
    exact le_trans (ih (min a x.start_time)) (Nat.min_le_left _ _)

theorem foldl_min_le_mem {l : List Shift} {x : Shift} (hx : x ∈ l) (a : Nat) :
    l.foldl (fun m y => min m y.start_time) a ≤ x.start_time := by
  induction l generalizing a with
  | nil => cases hx
  | cons y l ih =>
    rcases List.mem_cons.mp hx with rfl | hx'
    · exact le_trans (foldl_min_le_init l _) (Nat.min_le_right _ _)
    · exact ih hx' _

theorem minStartTime_le {shifts : List Shift} {sh : Shift} (h : sh ∈ shifts) :
    minStartTime shifts ≤ sh.start_time := by
  cases shifts with
  | nil => cases h
  | cons x l =>
    rcases List.mem_cons.mp h with rfl | h'
    · exact foldl_min_le_init l _
    · exact foldl_min_le_mem h' _

theorem init_le_foldl_max (l : List Shift) (a : Nat) :
    a ≤ l.foldl (fun m x => max m x.end_time) a := by
  induction l generalizing a with
  | nil => simp
  | cons x l ih =>
    exact le_trans (Nat.le_max_left _ _) (ih (max a x.end_time))

theorem mem_le_foldl_max {l : List Shift} {x : Shift} (hx : x ∈ l) (a : Nat) :
    x.end_time ≤ l.foldl (fun m y => max m y.end_time) a := by
  induction l generalizing a with
  | nil => cases hx
  | cons y l ih =>
    rcases List.mem_cons.mp hx with rfl | hx'
    · exact le_trans (Nat.le_max_right _ _) (init_le_foldl_max l _)
    · exact ih hx' _

theorem le_maxEndTime {shifts : List Shift} {sh : Shift} (h : sh ∈ shifts) :
    sh.end_time ≤ maxEndTime shifts := by
  cases shifts with
  | nil => cases h
  | cons x l =>
    rcases List.mem_cons.mp h with rfl | h'
    · exact init_le_foldl_max l _
    · exact mem_le_foldl_max h' _

/-! ## grid lookup lemmas -/

theorem mem_roleHourEntries {shifts : List Shift} {en : (Nat × Nat) × Shift} :
    en ∈ roleHourEntries shifts
      ↔ ∃ sh ∈ shifts, ∃ h ∈ occupiedHours sh, en = ((sh.role_id, h), sh) := by
  unfold roleHourEntries
  simp only [List.mem_flatMap, List.mem_map]
  constructor
  · rintro ⟨sh, hsh, h, hh, rfl⟩
    exact ⟨sh, hsh, h, hh, rfl⟩
  · rintro ⟨sh, hsh, h, hh, rfl⟩
    exact ⟨sh, hsh, h, hh, rfl⟩

theorem roleHourLookup_eq_some {shifts : List Shift} {sh : Shift} (hmem : sh ∈ shifts)
    {h : Nat} (hh : h ∈ occupiedHours sh)
    (hnc : ∀ sh' ∈ shifts, sh' ≠ sh → sh'.role_id = sh.role_id → h ∉ occupiedHours sh') :
    roleHourLookup shifts (sh.role_id, h) = some sh := by
  unfold roleHourLookup
  cases hf : (roleHourEntries shifts).reverse.find?
      (fun en => decide (en.1 = (sh.role_id, h))) with
  | none =>
    exfalso
    rw [List.find?_eq_none] at hf
    refine hf ((sh.role_id, h), sh) ?_ (by simp)
    rw [List.mem_reverse]
    exact mem_roleHourEntries.mpr ⟨sh, hmem, h, hh, rfl⟩
  | some en =>
    have h1 := List.find?_some hf
    have h2 := List.mem_of_find?_eq_some hf
    rw [List.mem_reverse] at h2
    obtain ⟨sh', hsh', h', hh', rfl⟩ := mem_roleHourEntries.mp h2
    simp only [decide_eq_true_eq, Prod.mk.injEq] at h1
    obtain ⟨hrole, hhour⟩ := h1
    by_cases he : sh' = sh
    · subst he
      rfl
    · exact absurd (hhour ▸ hh') (hnc sh' hsh' he hrole)

theorem roleHourLookup_ne_of_degenerate {shifts : List Shift} {sh : Shift}
    (hdeg : roundUpHour sh.end_time ≤ truncHour sh.start_time) (key : Nat × Nat) :
    roleHourLookup shifts key ≠ some sh := by
  intro hk
  unfold roleHourLookup at hk
  cases hf : (roleHourEntries shifts).reverse.find?
      (fun en => decide (en.1 = key)) with
  | none => rw [hf] at hk; cases hk
  | some en =>
    rw [hf] at hk
    have h2 := List.mem_of_find?_eq_some hf
    rw [List.mem_reverse] at h2
    obtain ⟨sh', _, h', hh', rfl⟩ := mem_roleHourEntries.mp h2
    simp only [Option.map_some'] at hk
    cases hk
    unfold occupiedHours at hh'
    rw [hoursBetween_eq_nil hdeg] at hh'
    cases hh'

theorem mem_occupiedHours {sh : Shift} {h : Nat} :
    h ∈ occupiedHours sh
      ↔ truncHour sh.start_time ≤ h ∧ h < roundUpHour sh.end_time ∧ h % 60 = 0 := by
  unfold occupiedHours
  exact mem_hoursBetween (truncHour_mod _) (roundUpHour_mod _)

theorem mem_gridHours {shifts : List Shift} {h : Nat} :
    h ∈ gridHours shifts
      ↔ truncHour (minStartTime shifts) ≤ h
        ∧ h < roundUpHour (maxEndTime shifts) ∧ h % 60 = 0 := by
  unfold gridHours
  exact mem_hoursBetween (truncHour_mod _) (roundUpHour_mod _)

/-- Hour-range disjointness implies disjoint occupied hour slots. -/
theorem not_mem_occupiedHours_of_apart {sh sh' : Shift} {h : Nat}
    (hsep : roundUpHour sh'.end_time ≤ truncHour sh.start_time
          ∨ roundUpHour sh.end_time ≤ truncHour sh'.start_time)
    (hh : h ∈ occupiedHours sh) : h ∉ occupiedHours sh' := by
  rw [mem_occupiedHours] at hh ⊢
  rcases hsep with hsep | hsep <;> omega

/-- C6 (amended): the grid builder enumerates the hours of
[min_hour, max_hour) in ascending order; provided no two same-role shifts
occupy a common hour slot (the spec's upstream no-overlap assumption), every
shift whose rounded-up end lies strictly after its truncated-down start gets
a shift_start cell at its truncated start hour with rowspan equal to the
number of hour slots it occupies, and shift_continue cells at its later
occupied hours; and the 10:00-12:00 / 12:30-13:00 example renders as hours
10,11,12 with rowspans 2 and 1. -/
theorem grid_builder_cells (shifts : List Shift) (ua : List Nat) (sh : Shift)
    (hmem : sh ∈ shifts)
    (hpos : truncHour sh.start_time < roundUpHour sh.end_time)
    (hnc : ∀ sh' ∈ shifts, sh' ≠ sh → sh'.role_id = sh.role_id →
      roundUpHour sh'.end_time ≤ truncHour sh.start_time
        ∨ roundUpHour sh.end_time ≤ truncHour sh'.start_time) :
    List.Pairwise (· < ·) (gridHours shifts) ∧
    (∀ h, h ∈ gridHours shifts
       ↔ truncHour (minStartTime shifts) ≤ h
         ∧ h < roundUpHour (maxEndTime shifts) ∧ h % 60 = 0) ∧
    truncHour sh.start_time ∈ gridHours shifts ∧
    buildCell shifts ua sh.role_id (truncHour sh.start_time)
      = Cell.shiftStart sh.id (rowspanOf sh) (ua.contains sh.id) ∧
    rowspanOf sh = (occupiedHours sh).length ∧
    (∀ h ∈ occupiedHours sh, h ≠ truncHour sh.start_time →
      h ∈ gridHours shifts ∧
      buildCell shifts ua sh.role_id h = Cell.shiftContinue) ∧
    (gridHours exShifts = [600, 660, 720] ∧
     buildCell exShifts [] 1 600 = Cell.shiftStart 1 2 false ∧
     buildCell exShifts [] 1 660 = Cell.shiftContinue ∧
     buildCell exShifts [] 1 720 = Cell.shiftStart 2 1 false) := by
  have hnc' : ∀ h, h ∈ occupiedHours sh →
      ∀ sh' ∈ shifts, sh' ≠ sh → sh'.role_id = sh.role_id → h ∉ occupiedHours sh' := by
    intro h hh sh' hsh' hne hrole
    exact not_mem_occupiedHours_of_apart (hnc sh' hsh' hne hrole) hh
  have hstart : truncHour sh.start_time ∈ occupiedHours sh := by
    rw [mem_occupiedHours]
    exact ⟨le_refl _, hpos, truncHour_mod _⟩
  have hgridmem : ∀ h ∈ occupiedHours sh, h ∈ gridHours shifts := by
    intro h hh
    rw [mem_occupiedHours] at hh
    rw [mem_gridHours]
    refine ⟨le_trans (truncHour_mono (minStartTime_le hmem)) hh.1,
      lt_of_lt_of_le hh.2.1 (roundUpHour_mono (le_maxEndTime hmem)), hh.2.2⟩
  refine ⟨pairwise_hoursBetween _ _, fun h => mem_gridHours, hgridmem _ hstart, ?_, ?_, ?_, ?_⟩
  · unfold buildCell
    rw [roleHourLookup_eq_some hmem hstart (fun sh' h1 h2 h3 => hnc' _ hstart sh' h1 h2 h3)]
    simp
  · unfold rowspanOf occupiedHours
    rw [length_hoursBetween]
    have h1 := truncHour_mod sh.start_time
    have h2 := roundUpHour_mod sh.end_time
    omega
  · intro h hh hne
    refine ⟨hgridmem _ hh, ?_⟩
    unfold buildCell
    rw [roleHourLookup_eq_some hmem hh (fun sh' h1 h2 h3 => hnc' _ hh sh' h1 h2 h3)]
    simp only
    rw [if_neg hne]
  · refine ⟨?_, ?_, ?_, ?_⟩
    · simp only [gridHours, hoursBetween_eq_range]
      decide
    · simp only [buildCell, roleHourLookup, roleHourEntries, occupiedHours,
        hoursBetween_eq_range]
      decide
    · simp only [buildCell, roleHourLookup, roleHourEntries, occupiedHours,
        hoursBetween_eq_range]
      decide
    · simp only [buildCell, roleHourLookup, roleHourEntries, occupiedHours,
        hoursBetween_eq_range]
      decide

/-- C6 counterexample: in c6Shifts the zero-duration shift 2 starts and ends
exactly on the hour boundary 720; its truncated start hour 720 is not even an
enumerated row, the occupied cells of the grid all belong to shift 1, and the
(role, 720) slot is unoccupied — so shift 2 yields no shift_start cell at its
truncated start hour, contrary to the claim's universal statement. -/
theorem grid_builder_zero_duration_counterexample :
    (⟨2, 1, 720, 720, 1⟩ : Shift) ∈ c6Shifts ∧
    truncHour (720 : Nat) = 720 ∧
    gridHours c6Shifts = [600, 660] ∧
    buildCell c6Shifts [] 1 600 = Cell.shiftStart 1 2 false ∧
    buildCell c6Shifts [] 1 660 = Cell.shiftContinue ∧
    roleHourLookup c6Shifts (1, 720) = none := by
  refine ⟨by decide, by decide, ?_, ?_, ?_, ?_⟩
  · simp only [gridHours, hoursBetween_eq_range]
    decide
  · simp only [buildCell, roleHourLookup, roleHourEntries, occupiedHours,
      hoursBetween_eq_range]
    decide
  · simp only [buildCell, roleHourLookup, roleHourEntries, occupiedHours,
      hoursBetween_eq_range]
    decide
  · simp only [roleHourLookup, roleHourEntries, occupiedHours, hoursBetween_eq_range]
    decide

theorem grid_builder_cells_witness :
    (⟨1, 1, 600, 720, 1⟩ : Shift) ∈ exShifts ∧
    truncHour (600 : Nat) < roundUpHour (720 : Nat) ∧
    (truncHour (600 : Nat) ∈ gridHours exShifts ∧
     buildCell exShifts [] 1 (truncHour (600 : Nat))
       = Cell.shiftStart 1 (rowspanOf ⟨1, 1, 600, 720, 1⟩) (List.contains [] 1) ∧
     gridHours exShifts = [600, 660, 720]) :=
  ⟨by decide, by decide,
    (grid_builder_cells exShifts [] ⟨1, 1, 600, 720, 1⟩ (by decide) (by decide)
      (by decide)).2.2.1,
    (grid_builder_cells exShifts [] ⟨1, 1, 600, 720, 1⟩ (by decide) (by decide)
      (by decide)).2.2.2.1,
    (grid_builder_cells exShifts [] ⟨1, 1, 600, 720, 1⟩ (by decide) (by decide)
      (by decide)).2.2.2.2.2.2.1⟩

/-- A value found in the role-hour dict is one of the event's shifts. -/
theorem roleHourLookup_mem {shifts : List Shift} {key : Nat × Nat} {sh : Shift}
    (h : roleHourLookup shifts key = some sh) : sh ∈ shifts := by
  unfold roleHourLookup at h
  cases hf : (roleHourEntries shifts).reverse.find? (fun en => decide (en.1 = key)) with
  | none => rw [hf] at h; cases h
  | some en =>
    rw [hf] at h
    have h2 := List.mem_of_find?_eq_some hf
    rw [List.mem_reverse] at h2
    obtain ⟨sh', hsh', h', _, rfl⟩ := mem_roleHourEntries.mp h2
    simp only [Option.map_some'] at h
    cases h
    exact hsh'

/-- C9: a shift whose rounded-up end does not lie strictly after its
truncated-down start occupies no hour slot, is never the value of a role-hour
lookup, and so appears in no grid cell; yet (concretely, in c9Shifts) its
times still extend the min/max hour computation, and a zero-duration shift
off the hour boundary is rendered with rowspan 1. -/
theorem degenerate_shift_renders_nothing (shifts : List Shift) (ua : List Nat)
    (sh : Shift) (_hmem : sh ∈ shifts)
    (hdeg : roundUpHour sh.end_time ≤ truncHour sh.start_time)
    (hids : ∀ sh' ∈ shifts, sh'.id = sh.id → sh' = sh) :
    occupiedHours sh = [] ∧
    (∀ key, roleHourLookup shifts key ≠ some sh) ∧
    (∀ rid h, cellShiftId (buildCell shifts ua rid h) ≠ some sh.id) ∧
    (maxEndTime c9Shifts = 780 ∧ gridHours c9Shifts = [600, 660, 720] ∧
     (gridHours c9Shifts).map (buildCell c9Shifts [] 1)
       = [Cell.shiftStart 1 1 false, Cell.empty, Cell.empty]) ∧
    (gridHours c9Shifts' = [600] ∧
     buildCell c9Shifts' [] 1 600 = Cell.shiftStart 3 1 false) := by
  have hlook : ∀ key, roleHourLookup shifts key ≠ some sh :=
    fun key => roleHourLookup_ne_of_degenerate hdeg key
  refine ⟨by unfold occupiedHours; exact hoursBetween_eq_nil hdeg, hlook, ?_, ?_, ?_⟩
  · intro rid h hx
    cases hl : roleHourLookup shifts (rid, h) with
    | none => simp only [buildCell, hl, cellShiftId] at hx; cases hx
    | some sh' =>
      simp only [buildCell, hl] at hx
      by_cases hh : h = truncHour sh'.start_time
      · rw [if_pos hh] at hx
        simp only [cellShiftId, Option.some.injEq] at hx
        have : sh' = sh := hids sh' (roleHourLookup_mem hl) hx
        exact hlook (rid, h) (this ▸ hl)
      · rw [if_neg hh] at hx
        cases hx
  · have hg : gridHours c9Shifts = [600, 660, 720] := by
      simp only [gridHours, hoursBetween_eq_range]
      decide
    refine ⟨by decide, hg, ?_⟩
    rw [hg]
    simp only [List.map_cons, List.map_nil, buildCell, roleHourLookup, roleHourEntries,
      occupiedHours, hoursBetween_eq_range]
    decide
  · constructor
    · simp only [gridHours, hoursBetween_eq_range]
      decide
    · simp only [buildCell, roleHourLookup, roleHourEntries, occupiedHours,
        hoursBetween_eq_range]
      decide

theorem degenerate_shift_renders_nothing_witness :
    (⟨2, 1, 780, 780, 1⟩ : Shift) ∈ c9Shifts ∧
    roundUpHour (780 : Nat) ≤ truncHour (780 : Nat) ∧
    occupiedHours ⟨2, 1, 780, 780, 1⟩ = [] ∧
    cellShiftId (buildCell c9Shifts [] 1 720) ≠ some 2 :=
  ⟨by decide, by decide,
    (degenerate_shift_renders_nothing c9Shifts [] ⟨2, 1, 780, 780, 1⟩ (by decide)
      (by decide) (by decide)).1,
    (degenerate_shift_renders_nothing c9Shifts [] ⟨2, 1, 780, 780, 1⟩ (by decide)
      (by decide) (by decide)).2.2.1 1 720⟩

/-- C5 counterexample: in stC5 the caller holds no ticket and shift id 99
does not exist; the claimed order (shift resolution second) would report
not-found, but the code checks ticket possession first and reports "ticket
required". -/
theorem shift_signup_order_counterexample :
    (shift_signup stC5 ⟨1, 10⟩ 99).1 = SignupResult.ticketRequired ∧
    (specSignupOrder stC5 ⟨1, 10⟩ 99).1 = SignupResult.notFound ∧
    get_active stC5 = some ⟨1, true, 0⟩ ∧
    findShift stC5 ⟨1, true, 0⟩ 99 = none ∧
    hasTicket stC5 1 ⟨1, true, 0⟩ = false ∧
    SignupResult.ticketRequired ≠ SignupResult.notFound := by
  decide

/-- C5 (amended): shift_signup evaluates its preconditions in the order
(1) active event, (2) completed-order ticket possession, (3) per-event shift
cap when nonzero, (4) shift resolution (not-found), (5) no duplicate signup,
(6) spots_remaining > 0; the reported failure is the first check in this
order that fails, every failure leaves the store unchanged, and passing all
checks creates exactly the one new assignment. -/
theorem shift_signup_check_order (s : St) (u : User) (sid : Nat) :
    (get_active s = none → shift_signup s u sid = (SignupResult.noActiveEvent, s)) ∧
    (∀ e, get_active s = some e →
      (hasTicket s u.id e = false →
        shift_signup s u sid = (SignupResult.ticketRequired, s)) ∧
      (hasTicket s u.id e = true →
        ((e.max_shifts_per_user > 0 ∧ userShiftCount s u.id e ≥ e.max_shifts_per_user) →
          shift_signup s u sid = (SignupResult.shiftLimitReached, s)) ∧
        (¬ (e.max_shifts_per_user > 0 ∧ userShiftCount s u.id e ≥ e.max_shifts_per_user) →
          (findShift s e sid = none →
            shift_signup s u sid = (SignupResult.notFound, s)) ∧
          (∀ sh, findShift s e sid = some sh →
            (s.assignments.any (fun a => decide (a.1 = sh.id ∧ a.2 = u.id)) = true →
              shift_signup s u sid = (SignupResult.alreadySignedUp, s)) ∧
            (s.assignments.any (fun a => decide (a.1 = sh.id ∧ a.2 = u.id)) = false →
              (spots_remaining s sh ≤ 0 →
                shift_signup s u sid = (SignupResult.shiftFull, s)) ∧
              (0 < spots_remaining s sh →
                shift_signup s u sid =
                  (SignupResult.ok,
                    { s with assignments := s.assignments ++ [(sh.id, u.id)] }))))))) := by
  constructor
  · intro h
    simp only [shift_signup, h]
  · intro e he
    constructor
    · intro h
      simp only [shift_signup, he, h]
      simp
    · intro h
      constructor
      · intro hcap
        simp only [shift_signup, he, h]
        simp only [not_true, if_false, if_pos hcap]
      · intro hcap
        constructor
        · intro hfind
          simp only [shift_signup, he, h, hfind]
          simp only [not_true, if_false, if_neg hcap]
        · intro sh hfind
          constructor
          · intro hdup
            simp only [shift_signup, he, h, hfind, hdup]
            simp only [not_true, if_false, if_neg hcap, if_true]
          · intro hdup
            constructor
            · intro hfull
              simp only [shift_signup, he, h, hfind, hdup]
              simp only [not_true, if_false, if_neg hcap, Bool.false_eq_true,
                if_pos hfull]
            · intro hfull
              simp only [shift_signup, he, h, hfind, hdup]
              simp only [not_true, if_false, if_neg hcap, Bool.false_eq_true]
              rw [if_neg (by omega)]

theorem shift_signup_check_order_witness :
    get_active stC5 = some ⟨1, true, 0⟩ ∧
    hasTicket stC5 1 ⟨1, true, 0⟩ = false ∧
    shift_signup stC5 ⟨1, 10⟩ 99 = (SignupResult.ticketRequired, stC5) :=
  ⟨by decide, by decide,
    ((shift_signup_check_order stC5 ⟨1, 10⟩ 99).2 ⟨1, true, 0⟩ (by decide)).1 (by decide)⟩

/-! ## shift signup and cancel: state shape -/

theorem shift_signup_state (s : St) (u : User) (sid : Nat) :
    (shift_signup s u sid).2 = s ∨
    ∃ e sh, get_active s = some e ∧ findShift s e sid = some sh ∧
      s.assignments.any (fun a => decide (a.1 = sh.id ∧ a.2 = u.id)) = false ∧
      0 < spots_remaining s sh ∧
      (shift_signup s u sid).2
        = { s with assignments := s.assignments ++ [(sh.id, u.id)] } := by
  unfold shift_signup
  split
  · left; rfl
  · rename_i e hget
    split
    · left; rfl
    · split
      · left; rfl
      · split
        · left; rfl
        · rename_i sh hfind
          split
          · left; rfl
          · split
            · left; rfl
            · rename_i hdup hfull
              right
              refine ⟨e, sh, hget, hfind, ?_, by omega, rfl⟩
              exact Bool.eq_false_iff.mpr hdup

theorem shift_signup_ok_implies (s : St) (u : User) (sid : Nat)
    (h : (shift_signup s u sid).1 = SignupResult.ok) :
    ∃ e sh, get_active s = some e ∧ findShift s e sid = some sh ∧
      0 < spots_remaining s sh := by
  unfold shift_signup at h
  split at h
  · cases h
  · rename_i e hget
    split at h
    · cases h
    · split at h
      · cases h
      · split at h
        · cases h
        · rename_i sh hfind
          split at h
          · cases h
          · split at h
            · cases h
            · rename_i hdup hfull
              exact ⟨e, sh, hget, hfind, by omega⟩

theorem shift_cancel_state (s : St) (u : User) (sid : Nat) :
    (shift_cancel s u sid).2 = s ∨
    ∃ e sh, get_active s = some e ∧ findShift s e sid = some sh ∧
      (shift_cancel s u sid).2
        = { s with assignments :=
              s.assignments.eraseP (fun a => decide (a.1 = sh.id ∧ a.2 = u.id)) } := by
  unfold shift_cancel
  split
  · left; rfl
  · rename_i e hget
    split
    · left; rfl
    · rename_i sh hfind
      split
      · right; exact ⟨e, sh, hget, hfind, rfl⟩
      · left; rfl

theorem findShift_mem {s : St} {e : Event} {sid : Nat} {sh : Shift}
    (h : findShift s e sid = some sh) : sh ∈ s.shifts :=
  List.mem_of_find?_eq_some h

theorem shifts_shiftStep (s : St) (op : ShiftOp) : (shiftStep s op).shifts = s.shifts := by
  cases op with
  | signup u sid =>
    rcases shift_signup_state s u sid with h | ⟨e, sh, _, _, _, _, h⟩ <;>
      simp only [shiftStep, h]
  | cancel u sid =>
    rcases shift_cancel_state s u sid with h | ⟨e, sh, _, _, h⟩ <;>
      simp only [shiftStep, h]

theorem shiftStep_preserves_capacity (s : St) (op : ShiftOp)
    (hnodup : (s.shifts.map Shift.id).Nodup)
    (hinv : ∀ sh ∈ s.shifts, assignmentCount s sh.id ≤ sh.capacity) :
    ∀ sh ∈ s.shifts, assignmentCount (shiftStep s op) sh.id ≤ sh.capacity := by
  cases op with
  | signup u sid =>
    rcases shift_signup_state s u sid with h | ⟨e, sh0, hget, hfind, hdup, hpos, h⟩
    · simpa only [shiftStep, h] using hinv
    · intro sh hsh
      simp only [shiftStep, h, assignmentCount, List.countP_append]
      by_cases hid : sh0.id = sh.id
      · have hsh0 : sh0 ∈ s.shifts := findShift_mem hfind
        have heq : sh = sh0 := eq_of_mem_of_nodup_key hnodup hsh hsh0 hid.symm
        subst heq
        have hcnt : assignmentCount s sh.id < sh.capacity := by
          unfold spots_remaining at hpos
          omega
        have hone : List.countP (fun a => decide (a.1 = sh.id)) [(sh.id, u.id)] = 1 := by
          simp
        rw [hid, hone]
        unfold assignmentCount at hcnt
        omega
      · have hzero : List.countP (fun a => decide (a.1 = sh.id)) [(sh0.id, u.id)] = 0 := by
          simp [hid]
        rw [hzero]
        simpa [assignmentCount] using hinv sh hsh
  | cancel u sid =>
    rcases shift_cancel_state s u sid with h | ⟨e, sh0, hget, hfind, h⟩
    · simpa only [shiftStep, h] using hinv
    · intro sh hsh
      simp only [shiftStep, h, assignmentCount]
      exact le_trans
        (List.Sublist.countP_le _ (List.eraseP_sublist s.assignments))
        (hinv sh hsh)

/-- C7: spots_remaining is always the derived value capacity minus current
assignment count; from any store where every shift has spots_remaining ≥ 0,
any sequence of signup/cancel operations preserves spots_remaining ≥ 0 for
every shift; and a signup attempted against a shift whose spots_remaining is
0 is rejected with the store unchanged. -/
theorem spots_remaining_invariant (s : St) (ops : List ShiftOp)
    (hnodup : (s.shifts.map Shift.id).Nodup)
    (hinv : ∀ sh ∈ s.shifts, 0 ≤ spots_remaining s sh) :
    (∀ sh, spots_remaining s sh
       = (sh.capacity : Int) - (assignmentCount s sh.id : Int)) ∧
    (∀ sh ∈ (List.foldl shiftStep s ops).shifts,
      0 ≤ spots_remaining (List.foldl shiftStep s ops) sh) ∧
    (∀ (u : User) (sid : Nat) (e : Event) (sh : Shift),
      get_active s = some e → findShift s e sid = some sh →
      spots_remaining s sh = 0 →
      (shift_signup s u sid).1 ≠ SignupResult.ok ∧ (shift_signup s u sid).2 = s) := by
  have conv : ∀ (s' : St) (sh : Shift),
      0 ≤ spots_remaining s' sh ↔ assignmentCount s' sh.id ≤ sh.capacity := by
    intro s' sh
    unfold spots_remaining
    omega
  refine ⟨fun sh => rfl, ?_, ?_⟩
  · have main : ∀ (ops' : List ShiftOp) (s' : St), (s'.shifts.map Shift.id).Nodup →
        (∀ sh ∈ s'.shifts, assignmentCount s' sh.id ≤ sh.capacity) →
        ((List.foldl shiftStep s' ops').shifts = s'.shifts ∧
         ∀ sh ∈ s'.shifts,
           assignmentCount (List.foldl shiftStep s' ops') sh.id ≤ sh.capacity) := by
      intro ops'
      induction ops' with
      | nil => intro s' h1 h2; exact ⟨rfl, h2⟩
      | cons op ops' ih =>
        intro s' h1 h2
        have hsh := shifts_shiftStep s' op
        have step := shiftStep_preserves_capacity s' op h1 h2
        have := ih (shiftStep s' op) (by rw [hsh]; exact h1) (by rw [hsh]; exact step)
        simp only [List.foldl_cons]
        exact ⟨by rw [this.1, hsh], by rw [hsh] at this; exact this.2⟩
    intro sh hsh
    have h2 : ∀ sh ∈ s.shifts, assignmentCount s sh.id ≤ sh.capacity :=
      fun sh' hsh' => (conv s sh').mp (hinv sh' hsh')
    have := main ops s hnodup h2
    rw [conv]
    exact this.2 sh (this.1 ▸ hsh)
  · intro u sid e sh hget hfind hzero
    constructor
    · intro hok
      obtain ⟨e', sh', hget', hfind', hpos⟩ := shift_signup_ok_implies s u sid hok
      rw [hget] at hget'
      cases hget'
      rw [hfind] at hfind'
      cases hfind'
      omega
    · rcases shift_signup_state s u sid with h | ⟨e', sh', hget', hfind', _, hpos, _⟩
      · exact h
      · rw [hget] at hget'
        cases hget'
        rw [hfind] at hfind'
        cases hfind'
        omega

theorem spots_remaining_invariant_witness :
    ((stShiftFull.shifts.map Shift.id).Nodup ∧
     (∀ sh ∈ stShiftFull.shifts, 0 ≤ spots_remaining stShiftFull sh)) ∧
    (∀ sh ∈ (List.foldl shiftStep stShiftFull
        [ShiftOp.signup ⟨1, 10⟩ 1]).shifts,
      0 ≤ spots_remaining (List.foldl shiftStep stShiftFull
        [ShiftOp.signup ⟨1, 10⟩ 1]) sh) ∧
    spots_remaining stShiftFull ⟨1, 1, 600, 660, 1⟩ = 0 ∧
    (shift_signup stShiftFull ⟨1, 10⟩ 1).1 ≠ SignupResult.ok ∧
    (shift_signup stShiftFull ⟨1, 10⟩ 1).2 = stShiftFull :=
  ⟨⟨by decide, by decide⟩,
    (spots_remaining_invariant stShiftFull [ShiftOp.signup ⟨1, 10⟩ 1]
      (by decide) (by decide)).2.1,
    by decide,
    ((spots_remaining_invariant stShiftFull [ShiftOp.signup ⟨1, 10⟩ 1]
      (by decide) (by decide)).2.2 ⟨1, 10⟩ 1 ⟨1, true, 0⟩ ⟨1, 1, 600, 660, 1⟩
      (by decide) (by decide) (by decide)).1,
    ((spots_remaining_invariant stShiftFull [ShiftOp.signup ⟨1, 10⟩ 1]
      (by decide) (by decide)).2.2 ⟨1, 10⟩ 1 ⟨1, true, 0⟩ ⟨1, 1, 600, 660, 1⟩
      (by decide) (by decide) (by decide)).2⟩

/-- C4: for a session the gateway reports as paid, finalization rewrites
exactly the pending orders of that session to completed (recording the
payment intent) and leaves every other order untouched; afterwards no pending
order of the session remains, and running finalization again changes
nothing. -/
theorem checkout_success_idempotent (gw : Gateway) (s : St) (sid : Nat)
    (hpaid : gw.payment_status sid = some true) :
    List.Forall₂ (fun o o' =>
      o' = if o.stripe_checkout_session_id = sid ∧ o.status = OrderStatus.pending
           then { o with status := OrderStatus.completed,
                         stripe_payment_intent_id := some (gw.payment_intent sid) }
           else o)
      s.orders (checkout_success gw s (some sid)).orders ∧
    (∀ o ∈ (checkout_success gw s (some sid)).orders,
      o.stripe_checkout_session_id = sid → o.status ≠ OrderStatus.pending) ∧
    checkout_success gw (checkout_success gw s (some sid)) (some sid)
      = checkout_success gw s (some sid) := by
  have hstate : checkout_success gw s (some sid)
      = { s with orders := s.orders.map (fun o =>
          if o.stripe_checkout_session_id = sid ∧ o.status = OrderStatus.pending then
            { o with status := OrderStatus.completed,
                     stripe_payment_intent_id := some (gw.payment_intent sid) }
          else o) } := by
    simp only [checkout_success, hpaid, if_true]
  refine ⟨?_, ?_, ?_⟩
  · rw [hstate]
    rw [List.forall₂_map_right_iff]
    exact List.forall₂_same.mpr (fun a _ => rfl)
  · rw [hstate]
    simp only [List.mem_map]
    rintro o ⟨a, ha, rfl⟩
    by_cases hc : a.stripe_checkout_session_id = sid ∧ a.status = OrderStatus.pending
    · rw [if_pos hc]
      intro _ hcontra
      cases hcontra
    · rw [if_neg hc]
      intro hsid hpend
      exact hc ⟨hsid, hpend⟩
  · rw [hstate]
    simp only [checkout_success, hpaid, if_true]
    congr 1
    rw [List.map_map]
    apply List.map_congr_left
    intro a _
    simp only [Function.comp_apply]
    by_cases hc : a.stripe_checkout_session_id = sid ∧ a.status = OrderStatus.pending
    · rw [if_pos hc]
      rw [if_neg (by intro h; cases h.2)]
    · rw [if_neg hc, if_neg hc]

theorem checkout_success_idempotent_witness :
    (Gateway.mk (fun _ => some true) (fun _ => 7)).payment_status 101 = some true ∧
    checkout_success ⟨fun _ => some true, fun _ => 7⟩
        (checkout_success ⟨fun _ => some true, fun _ => 7⟩ stTicket (some 101))
        (some 101)
      = checkout_success ⟨fun _ => some true, fun _ => 7⟩ stTicket (some 101) :=
  ⟨rfl,
    (checkout_success_idempotent ⟨fun _ => some true, fun _ => 7⟩ stTicket 101 rfl).2.2⟩

/-! ## key-based find? lemmas -/

theorem find?_key_map {α : Type} (f : α → α) (key : α → Nat)
    (hf : ∀ a, key (f a) = key a) (l : List α) (k : Nat) :
    (l.map f).find? (fun a => decide (key a = k))
      = Option.map f (l.find? (fun a => decide (key a = k))) := by
  rw [List.find?_map]
  have hp : ((fun a => decide (key a = k)) ∘ f) = (fun a => decide (key a = k)) := by
    funext a
    simp [Function.comp, hf]
  rw [hp]

theorem find?_key_eq_some_of_nodup {α : Type} (key : α → Nat) {l : List α}
    (h : (l.map key).Nodup) {a : α} (ha : a ∈ l) :
    l.find? (fun x => decide (key x = key a)) = some a := by
  cases hf : l.find? (fun x => decide (key x = key a)) with
  | none =>
    rw [List.find?_eq_none] at hf
    exact absurd (by simp) (hf a ha)
  | some x =>
    have h1 := List.find?_some hf
    have h2 := List.mem_of_find?_eq_some hf
    rw [decide_eq_true_eq] at h1
    rw [eq_of_mem_of_nodup_key h h2 ha h1]

/-- C2: acceptance succeeds exactly when the acceptor's current
completed+pending count for the order's ticket type is strictly below
max_per_user (the check is re-run against the current store, not a
snapshot); on success the one resulting store has the order reassigned to
the acceptor and the transfer marked accepted with to_user the acceptor,
all other orders and transfers unchanged; on failure the store is returned
unchanged. -/
theorem accept_transfer_spec (s : St) (u : User) (tid : Nat)
    (hTN : (s.transfers.map Transfer.id).Nodup)
    (tr : Transfer)
    (htr : s.transfers.find? (fun t => decide (t.id = tid ∧ t.to_email = u.email ∧
      t.status = TransferStatus.pending)) = some tr)
    (order : Order) (hord : findOrder s tr.order_id = some order)
    (tt : TicketType) (htt : findTicketType s order.ticket_type_id = some tt) :
    ((accept_transfer s u tid).1 = AcceptResult.ok
       ↔ countOrders s u.id order.ticket_type_id < tt.max_per_user) ∧
    (countOrders s u.id order.ticket_type_id < tt.max_per_user →
      findOrder (accept_transfer s u tid).2 order.id
          = some { order with owning_user := u.id } ∧
      findTransfer (accept_transfer s u tid).2 tr.id
          = some { tr with to_user := some u.id, status := TransferStatus.accepted } ∧
      (∀ oid, oid ≠ order.id →
        findOrder (accept_transfer s u tid).2 oid = findOrder s oid) ∧
      (∀ tid', tid' ≠ tr.id →
        findTransfer (accept_transfer s u tid).2 tid' = findTransfer s tid')) ∧
    (tt.max_per_user ≤ countOrders s u.id order.ticket_type_id →
      (accept_transfer s u tid).2 = s) := by
  have horder_id : order.id = tr.order_id := by
    have := List.find?_some hord
    rwa [decide_eq_true_eq] at this
  have htr_mem : tr ∈ s.transfers := List.mem_of_find?_eq_some htr
  have hofid : ∀ o : Order,
      (if o.id = order.id then { o with owning_user := u.id } else o).id = o.id := by
    intro o
    by_cases hc : o.id = order.id <;> simp [hc]
  have htfid : ∀ t : Transfer,
      (if t.id = tr.id then
        { t with to_user := some u.id, status := TransferStatus.accepted } else t).id
        = t.id := by
    intro t
    by_cases hc : t.id = tr.id <;> simp [hc]
  by_cases hge : countOrders s u.id order.ticket_type_id ≥ tt.max_per_user
  · refine ⟨?_, fun hlt => absurd hge (by omega), fun _ => ?_⟩
    · simp only [accept_transfer, htr, hord, htt, if_pos hge]
      constructor
      · intro h; cases h
      · intro h; omega
    · simp only [accept_transfer, htr, hord, htt, if_pos hge]
  · have hA : accept_transfer s u tid
        = (AcceptResult.ok,
           { s with
             orders := s.orders.map (fun o =>
               if o.id = order.id then { o with owning_user := u.id } else o),
             transfers := s.transfers.map (fun t =>
               if t.id = tr.id then
                 { t with to_user := some u.id, status := TransferStatus.accepted }
               else t) }) := by
      simp only [accept_transfer, htr, hord, htt, if_neg hge]
    refine ⟨by rw [hA]; simp only [true_iff]; omega, fun _ => ⟨?_, ?_, ?_, ?_⟩,
      fun h => absurd h (by omega)⟩
    · rw [hA]
      unfold findOrder
      simp only
      rw [find?_key_map _ Order.id hofid]
      have : s.orders.find? (fun o => decide (o.id = order.id)) = some order := by
        have := hord
        unfold findOrder at this
        rw [horder_id]
        exact this
      rw [this]
      simp
    · rw [hA]
      unfold findTransfer
      simp only
      rw [find?_key_map _ Transfer.id htfid]
      have : s.transfers.find? (fun t => decide (t.id = tr.id)) = some tr :=
        find?_key_eq_some_of_nodup Transfer.id hTN htr_mem
      rw [this]
      simp
    · intro oid hne
      rw [hA]
      unfold findOrder
      simp only
      rw [find?_key_map _ Order.id hofid]
      cases hfo : s.orders.find? (fun o => decide (o.id = oid)) with
      | none => rfl
      | some o' =>
        have h1 := List.find?_some hfo
        rw [decide_eq_true_eq] at h1
        simp only [Option.map_some']
        rw [if_neg (by rw [h1]; exact hne)]
    · intro tid' hne
      rw [hA]
      unfold findTransfer
      simp only
      rw [find?_key_map _ Transfer.id htfid]
      cases hft : s.transfers.find? (fun t => decide (t.id = tid')) with
      | none => rfl
      | some t' =>
        have h1 := List.find?_some hft
        rw [decide_eq_true_eq] at h1
        simp only [Option.map_some']
        rw [if_neg (by rw [h1]; exact hne)]

theorem accept_transfer_spec_witness :
    countOrders stTransfer 2 1 < 2 ∧
    (accept_transfer stTransfer ⟨2, 20⟩ 1).1 = AcceptResult.ok ∧
    findOrder (accept_transfer stTransfer ⟨2, 20⟩ 1).2 1
      = some ⟨1, 1, 1, 2, 100, none, OrderStatus.completed⟩ ∧
    findTransfer (accept_transfer stTransfer ⟨2, 20⟩ 1).2 1
      = some ⟨1, 1, 1, 20, some 2, TransferStatus.accepted⟩ :=
  ⟨by decide,
    (accept_transfer_spec stTransfer ⟨2, 20⟩ 1 (by decide)
      ⟨1, 1, 1, 20, some 2, TransferStatus.pending⟩ (by decide)
      ⟨1, 1, 1, 1, 100, none, OrderStatus.completed⟩ (by decide)
      ⟨1, 1, 2⟩ (by decide)).1.mpr (by decide),
    ((accept_transfer_spec stTransfer ⟨2, 20⟩ 1 (by decide)
      ⟨1, 1, 1, 20, some 2, TransferStatus.pending⟩ (by decide)
      ⟨1, 1, 1, 1, 100, none, OrderStatus.completed⟩ (by decide)
      ⟨1, 1, 2⟩ (by decide)).2.1 (by decide)).1,
    ((accept_transfer_spec stTransfer ⟨2, 20⟩ 1 (by decide)
      ⟨1, 1, 1, 20, some 2, TransferStatus.pending⟩ (by decide)
      ⟨1, 1, 1, 1, 100, none, OrderStatus.completed⟩ (by decide)
      ⟨1, 1, 2⟩ (by decide)).2.1 (by decide)).2.1⟩

/-- C8: transfer initiation creates no Transfer row on any failure; when the
order, recipient and ticket type resolve and the recipient's
completed+pending order count plus the pending transfers already addressed
to that email for the same ticket type reaches max_per_user, the initiation
is rejected with recipientLimit and the store unchanged; and a successful
initiation implies that check passed and appends exactly one pending
Transfer recording the resolved recipient account. -/
theorem transfer_ticket_recipient_check (s : St) (u : User) (orderId : Nat)
    (toEmail? : Option Nat) :
    ((transfer_ticket s u orderId toEmail?).1 ≠ TransferResult.ok →
      (transfer_ticket s u orderId toEmail?).2 = s) ∧
    (∀ order toEmail toUser tt,
      s.orders.find? (fun o => decide (o.id = orderId ∧ o.owning_user = u.id ∧
        o.status = OrderStatus.completed)) = some order →
      pendingTransferForOrder s order.id = false →
      toEmail? = some toEmail →
      toEmail ≠ u.email →
      s.users.find? (fun v => decide (v.email = toEmail)) = some toUser →
      findTicketType s order.ticket_type_id = some tt →
      tt.max_per_user ≤ countOrders s toUser.id order.ticket_type_id
          + pendingTransfersToEmail s toEmail order.ticket_type_id →
      transfer_ticket s u orderId toEmail? = (TransferResult.recipientLimit, s)) ∧
    ((transfer_ticket s u orderId toEmail?).1 = TransferResult.ok →
      ∃ order toEmail toUser tt,
        s.orders.find? (fun o => decide (o.id = orderId ∧ o.owning_user = u.id ∧
          o.status = OrderStatus.completed)) = some order ∧
        toEmail? = some toEmail ∧
        s.users.find? (fun v => decide (v.email = toEmail)) = some toUser ∧
        findTicketType s order.ticket_type_id = some tt ∧
        countOrders s toUser.id order.ticket_type_id
          + pendingTransfersToEmail s toEmail order.ticket_type_id < tt.max_per_user ∧
        (transfer_ticket s u orderId toEmail?).2.transfers
          = s.transfers ++ [(⟨s.next_transfer_id, order.id, u.id, toEmail,
              some toUser.id, TransferStatus.pending⟩ : Transfer)] ∧
        (transfer_ticket s u orderId toEmail?).2.orders = s.orders) := by
  refine ⟨?_, ?_, ?_⟩
  · unfold transfer_ticket
    split
    · intro _; rfl
    · split
      · intro _; rfl
      · split
        · intro _; rfl
        · split
          · intro _; rfl
          · split
            · intro _; rfl
            · split
              · intro _; rfl
              · split
                · intro _; rfl
                · intro h; exact absurd rfl h
  · intro order toEmail toUser tt hord hpend hmail hne huser htt hge
    subst hmail
    simp only [transfer_ticket, hord, hpend, Bool.false_eq_true, if_false,
      if_neg hne, huser, htt, if_pos hge]
  · intro hok
    unfold transfer_ticket at hok ⊢
    split at hok
    · cases hok
    · rename_i order hord
      split at hok
      · cases hok
      · rename_i hpend
        split at hok
        · cases hok
        · rename_i toEmail
          split at hok
          · cases hok
          · rename_i hne
            split at hok
            · cases hok
            · rename_i toUser huser
              split at hok
              · cases hok
              · rename_i tt htt
                split at hok
                · cases hok
                · rename_i hlt
                  refine ⟨order, toEmail, toUser, tt, hord, rfl, huser, htt,
                    by omega, ?_, ?_⟩
                  · rw [if_neg hpend, if_neg hne, if_neg hlt]
                  · rw [if_neg hpend, if_neg hne, if_neg hlt]

theorem transfer_ticket_recipient_check_witness :
    (transfer_ticket stInit ⟨1, 10⟩ 2 none).2 = stInit ∧
    (transfer_ticket stInit ⟨1, 10⟩ 1 (some 20)).1 = TransferResult.ok ∧
    (∃ order toEmail toUser tt,
      stInit.orders.find? (fun o => decide (o.id = 1 ∧ o.owning_user = 1 ∧
        o.status = OrderStatus.completed)) = some order ∧
      (some 20 : Option Nat) = some toEmail ∧
      stInit.users.find? (fun v => decide (v.email = toEmail)) = some toUser ∧
      findTicketType stInit order.ticket_type_id = some tt ∧
      countOrders stInit toUser.id order.ticket_type_id
        + pendingTransfersToEmail stInit toEmail order.ticket_type_id
        < tt.max_per_user ∧
      (transfer_ticket stInit ⟨1, 10⟩ 1 (some 20)).2.transfers
        = stInit.transfers ++ [(⟨stInit.next_transfer_id, order.id, 1, toEmail,
            some toUser.id, TransferStatus.pending⟩ : Transfer)] ∧
      (transfer_ticket stInit ⟨1, 10⟩ 1 (some 20)).2.orders = stInit.orders) :=
  ⟨(transfer_ticket_recipient_check stInit ⟨1, 10⟩ 2 none).1 (by decide),
   by decide,
   (transfer_ticket_recipient_check stInit ⟨1, 10⟩ 1 (some 20)).2.2 (by decide)⟩

/-! ## counting lemmas for order creation -/

theorem flatMap_congr {α β : Type} {l : List α} {f g : α → List β}
    (h : ∀ a ∈ l, f a = g a) : l.flatMap f = l.flatMap g := by
  induction l with
  | nil => rfl
  | cons a l ih =>
    simp only [List.flatMap_cons]
    rw [h a (by simp), ih (fun x hx => h x (by simp [hx]))]

theorem countP_replicate {α : Type} (p : α → Bool) (n : Nat) (a : α) :
    (List.replicate n a).countP p = if p a then n else 0 := by
  induction n with
  | zero => simp
  | succ n ih =>
    rw [List.replicate_succ, List.countP_cons, ih]
    by_cases hp : p a <;> simp [hp]

theorem mkOrders_length (tts : List TicketType) (base uid sid : Nat) :
    (mkOrders tts base uid sid).length = tts.length := by
  induction tts generalizing base with
  | nil => rfl
  | cons t tts ih => simp [mkOrders, ih]

theorem mkOrders_mem (tts : List TicketType) (base uid sid : Nat) :
    ∀ o ∈ mkOrders tts base uid sid,
      o.status = OrderStatus.pending ∧ o.stripe_checkout_session_id = sid ∧
      o.owning_user = uid ∧ o.purchasing_user = uid ∧ o.stripe_payment_intent_id = none ∧
      base ≤ o.id ∧ o.id < base + tts.length := by
  induction tts generalizing base with
  | nil => intro o ho; cases ho
  | cons t tts ih =>
    intro o ho
    rcases List.mem_cons.mp ho with rfl | ho'
    · refine ⟨rfl, rfl, rfl, rfl, rfl, le_refl _, by simp only [List.length_cons]; omega⟩
    · obtain ⟨h1, h2, h3, h4, h5, h6, h7⟩ := ih (base + 1) o ho'
      exact ⟨h1, h2, h3, h4, h5, by omega, by simp only [List.length_cons]; omega⟩

theorem mkOrders_ids_nodup (tts : List TicketType) (base uid sid : Nat) :
    ((mkOrders tts base uid sid).map Order.id).Nodup := by
  induction tts generalizing base with
  | nil => simp [mkOrders]
  | cons t tts ih =>
    simp only [mkOrders, List.map_cons, List.nodup_cons]
    refine ⟨?_, ih (base + 1)⟩
    intro hmem
    obtain ⟨o, ho, hid⟩ := List.mem_map.mp hmem
    have := (mkOrders_mem tts (base + 1) uid sid o ho).2.2.2.2.2.1
    omega

theorem countP_mkOrders_type (tts : List TicketType) (base uid sid ttId : Nat) :
    (mkOrders tts base uid sid).countP (fun o => decide (o.ticket_type_id = ttId))
      = tts.countP (fun t => decide (t.id = ttId)) := by
  induction tts generalizing base with
  | nil => rfl
  | cons t tts ih =>
    simp only [mkOrders, List.countP_cons, ih (base + 1)]

theorem countP_mkOrders_quota (tts : List TicketType) (base uid sid uid' ttId : Nat) :
    (mkOrders tts base uid sid).countP (fun o => decide (o.ticket_type_id = ttId ∧
        o.owning_user = uid' ∧
        (o.status = OrderStatus.completed ∨ o.status = OrderStatus.pending)))
      = if uid = uid' then tts.countP (fun t => decide (t.id = ttId)) else 0 := by
  induction tts generalizing base with
  | nil => simp [mkOrders]
  | cons t tts ih =>
    simp only [mkOrders, List.countP_cons, ih (base + 1)]
    by_cases hu : uid = uid'
    · subst hu
      by_cases ht : t.id = ttId <;> simp [ht]
    · simp [hu]

theorem eventTicketTypes_ids_nodup {s : St} (hN : (s.ticket_types.map TicketType.id).Nodup)
    (e : Event) : ((eventTicketTypes s e).map TicketType.id).Nodup :=
  List.Nodup.sublist (List.Sublist.map _ (List.filter_sublist _)) hN

theorem requestedCount_eq {s : St} {e : Event} (qty : Quantities)
    (hN : (s.ticket_types.map TicketType.id).Nodup)
    {t : TicketType} (ht : t ∈ eventTicketTypes s e) :
    requestedCount s e qty t.id = if 0 < qty t.id then (qty t.id).toNat else 0 := by
  have hN' := eventTicketTypes_ids_nodup hN e
  unfold requestedCount ticketsToCreate
  revert ht hN'
  generalize eventTicketTypes s e = l
  induction l with
  | nil => intro h _; cases h
  | cons a l ih =>
    intro ht hN'
    simp only [List.map_cons, List.nodup_cons] at hN'
    simp only [List.flatMap_cons, List.countP_append]
    rcases List.mem_cons.mp ht with rfl | ht'
    · have hrest : (l.flatMap (fun t' => if 0 < qty t'.id
          then List.replicate (qty t'.id).toNat t' else [])).countP
            (fun x => decide (x.id = t.id)) = 0 := by
        rw [List.countP_eq_zero]
        intro x hx
        obtain ⟨t', ht', hx'⟩ := List.mem_flatMap.mp hx
        have hxt' : x = t' := by
          by_cases hq : 0 < qty t'.id
          · rw [if_pos hq] at hx'
            exact (List.mem_replicate.mp hx').2
          · rw [if_neg hq] at hx'
            cases hx'
        subst hxt'
        simp only [decide_eq_true_eq]
        intro hid
        exact hN'.1 (List.mem_map.mpr ⟨x, ht', hid⟩)
      rw [hrest]
      by_cases hq : 0 < qty t.id
      · rw [if_pos hq, if_pos hq, countP_replicate]
        simp
      · rw [if_neg hq, if_neg hq]
        simp
    · have hid_ne : ¬ a.id = t.id := by
        intro h
        exact hN'.1 (List.mem_map.mpr ⟨t, ht', h.symm⟩)
      have hfirst : (if 0 < qty a.id then List.replicate (qty a.id).toNat a
          else []).countP (fun x => decide (x.id = t.id)) = 0 := by
        by_cases hq : 0 < qty a.id
        · rw [if_pos hq, countP_replicate]
          simp [hid_ne]
        · rw [if_neg hq]
          rfl
      rw [hfirst, ih ht' hN'.2]
      omega

/-- create_checkout_session reads quantities only through line_items and
tickets_to_create. -/
theorem create_checkout_congr (s : St) (u : User) (e : Event)
    (hev : get_active s = some e) (qty qty' : Quantities)
    (hl : lineItems s e qty = lineItems s e qty')
    (ht : ticketsToCreate s e qty = ticketsToCreate s e qty') :
    create_checkout_session s u qty = create_checkout_session s u qty' := by
  have hr : requestedCount s e qty = requestedCount s e qty' := by
    funext ttId
    unfold requestedCount
    rw [ht]
  have hx : exceededType s u.id e qty = exceededType s u.id e qty' := by
    unfold exceededType
    rw [hr]
  simp only [create_checkout_session, hev, hl, hx, ht]

/-- C10: checkout-session creation reads quantities only at the ids of the
active event's ticket types, treats non-positive quantities exactly like
zero, and when every considered quantity is non-positive rejects the request
with select-at-least-one, the store (hence gateway-call count and orders)
unchanged. -/
theorem checkout_reads_event_quantities (s : St) (u : User) (e : Event)
    (hev : get_active s = some e) :
    (∀ qty qty' : Quantities, (∀ t ∈ eventTicketTypes s e, qty t.id = qty' t.id) →
      create_checkout_session s u qty = create_checkout_session s u qty') ∧
    (∀ qty : Quantities,
      create_checkout_session s u qty
        = create_checkout_session s u (fun i => if 0 < qty i then qty i else 0)) ∧
    (∀ qty : Quantities, (∀ t ∈ eventTicketTypes s e, qty t.id ≤ 0) →
      create_checkout_session s u qty = (CheckoutResult.selectAtLeastOne, s)) := by
  refine ⟨?_, ?_, ?_⟩
  · intro qty qty' h
    refine create_checkout_congr s u e hev qty qty' ?_ ?_
    · unfold lineItems
      exact List.filterMap_congr (fun t htm => by rw [h t htm])
    · unfold ticketsToCreate
      exact flatMap_congr (fun t htm => by rw [h t htm])
  · intro qty
    refine create_checkout_congr s u e hev qty _ ?_ ?_
    · unfold lineItems
      refine List.filterMap_congr (fun t _ => ?_)
      by_cases hq : 0 < qty t.id <;> simp [hq]
    · unfold ticketsToCreate
      refine flatMap_congr (fun t _ => ?_)
      by_cases hq : 0 < qty t.id <;> simp [hq]
  · intro qty h
    have hnil : lineItems s e qty = [] := by
      unfold lineItems
      rw [List.filterMap_eq_nil_iff]
      intro t htm
      rw [if_neg (by have := h t htm; omega)]
    simp only [create_checkout_session, hev, hnil, if_pos rfl]
    simp

theorem checkout_reads_event_quantities_witness :
    get_active stTicket = some ⟨1, true, 0⟩ ∧
    create_checkout_session stTicket ⟨1, 10⟩ (fun i => if i = 1 then 1 else 5)
      = create_checkout_session stTicket ⟨1, 10⟩ (fun i => if i = 1 then 1 else 7) ∧
    create_checkout_session stTicket ⟨1, 10⟩ (fun _ => -3)
      = (CheckoutResult.selectAtLeastOne, stTicket) :=
  ⟨by decide,
   (checkout_reads_event_quantities stTicket ⟨1, 10⟩ ⟨1, true, 0⟩ (by decide)).1
     (fun i => if i = 1 then 1 else 5) (fun i => if i = 1 then 1 else 7) (by decide),
   (checkout_reads_event_quantities stTicket ⟨1, 10⟩ ⟨1, true, 0⟩ (by decide)).2.2
     (fun _ => -3) (by decide)⟩

/-- C3: with the active event resolved and at least one positive quantity
requested, checkout is all-or-nothing. If some ticket type of the event has
existing + requested above max_per_user, the first such type is reported
with remaining allowance max(0, max_per_user - existing) and the store is
returned unchanged — no gateway call, no Order rows. Otherwise the result is
ok, exactly one gateway session is created, the old orders are untouched and
the appended rows are one pending Order per requested unit, all carrying the
fresh session id, with per-type multiplicities equal to the requested
quantities. -/
theorem create_checkout_all_or_nothing (s : St) (u : User) (qty : Quantities)
    (e : Event) (hev : get_active s = some e)
    (hN : (s.ticket_types.map TicketType.id).Nodup)
    (hne : lineItems s e qty ≠ []) :
    ((∃ t ∈ eventTicketTypes s e,
        t.max_per_user < countOrders s u.id t.id + requestedCount s e qty t.id) →
      ∃ t ∈ eventTicketTypes s e,
        t.max_per_user < countOrders s u.id t.id + requestedCount s e qty t.id ∧
        create_checkout_session s u qty
          = (CheckoutResult.limitExceeded t.id t.max_per_user (countOrders s u.id t.id)
              (max 0 ((t.max_per_user : Int) - (countOrders s u.id t.id : Int))), s)) ∧
    ((∀ t ∈ eventTicketTypes s e,
        countOrders s u.id t.id + requestedCount s e qty t.id ≤ t.max_per_user) →
      (create_checkout_session s u qty).1 = CheckoutResult.ok s.next_session_id ∧
      (create_checkout_session s u qty).2.stripe_sessions_created
        = s.stripe_sessions_created + 1 ∧
      (create_checkout_session s u qty).2.orders.take s.orders.length = s.orders ∧
      (create_checkout_session s u qty).2.orders.length
        = s.orders.length + (ticketsToCreate s e qty).length ∧
      (∀ o ∈ (create_checkout_session s u qty).2.orders.drop s.orders.length,
        o.status = OrderStatus.pending ∧
        o.stripe_checkout_session_id = s.next_session_id ∧
        o.owning_user = u.id ∧ o.purchasing_user = u.id) ∧
      (∀ ttId, ((create_checkout_session s u qty).2.orders.drop s.orders.length).countP
          (fun o => decide (o.ticket_type_id = ttId)) = requestedCount s e qty ttId) ∧
      (∀ t ∈ eventTicketTypes s e,
        requestedCount s e qty t.id = if 0 < qty t.id then (qty t.id).toNat else 0)) := by
  constructor
  · intro hex
    have hsome : (exceededType s u.id e qty).isSome := by
      rw [exceededType, List.find?_isSome]
      obtain ⟨t, htm, hgt⟩ := hex
      exact ⟨t, htm, by simp only [decide_eq_true_eq]; omega⟩
    obtain ⟨t₀, ht₀⟩ := Option.isSome_iff_exists.mp hsome
    have hmem := List.mem_of_find?_eq_some ht₀
    have hp := List.find?_some ht₀
    rw [decide_eq_true_eq] at hp
    refine ⟨t₀, hmem, by omega, ?_⟩
    simp only [create_checkout_session, hev, if_neg hne, ht₀]
  · intro hall
    have hnone : exceededType s u.id e qty = none := by
      rw [exceededType, List.find?_eq_none]
      intro t htm
      simp only [decide_eq_true_eq]
      have := hall t htm
      omega
    have hstate : create_checkout_session s u qty
        = (CheckoutResult.ok s.next_session_id,
           { s with
             orders := s.orders ++ mkOrders (ticketsToCreate s e qty)
               s.next_order_id u.id s.next_session_id,
             next_order_id := s.next_order_id + (ticketsToCreate s e qty).length,
             next_session_id := s.next_session_id + 1,
             stripe_sessions_created := s.stripe_sessions_created + 1 }) := by
      simp only [create_checkout_session, hev, if_neg hne, hnone]
    refine ⟨by rw [hstate], by rw [hstate], ?_, ?_, ?_, ?_, ?_⟩
    · rw [hstate]
      exact List.take_left _ _
    · rw [hstate]
      simp [mkOrders_length]
    · rw [hstate]
      simp only [List.drop_left]
      intro o ho
      have h := mkOrders_mem _ _ _ _ o ho
      exact ⟨h.1, h.2.1, h.2.2.1, h.2.2.2.1⟩
    · rw [hstate]
      simp only [List.drop_left]
      intro ttId
      exact countP_mkOrders_type _ _ _ _ _
    · intro t htm
      exact requestedCount_eq qty hN htm

theorem create_checkout_all_or_nothing_witness :
    get_active stTicket = some ⟨1, true, 0⟩ ∧
    lineItems stTicket ⟨1, true, 0⟩ (fun i => if i = 1 then 1 else 0) ≠ [] ∧
    (∀ t ∈ eventTicketTypes stTicket ⟨1, true, 0⟩,
      countOrders stTicket 2 t.id
        + requestedCount stTicket ⟨1, true, 0⟩ (fun i => if i = 1 then 1 else 0) t.id
        ≤ t.max_per_user) ∧
    (create_checkout_session stTicket ⟨2, 20⟩ (fun i => if i = 1 then 1 else 0)).1
      = CheckoutResult.ok 102 ∧
    (create_checkout_session stTicket ⟨2, 20⟩
        (fun i => if i = 1 then 1 else 0)).2.stripe_sessions_created = 3 :=
  ⟨by decide, by decide, by decide,
   ((create_checkout_all_or_nothing stTicket ⟨2, 20⟩ (fun i => if i = 1 then 1 else 0)
      ⟨1, true, 0⟩ (by decide) (by decide) (by decide)).2 (by decide)).1,
   ((create_checkout_all_or_nothing stTicket ⟨2, 20⟩ (fun i => if i = 1 then 1 else 0)
      ⟨1, true, 0⟩ (by decide) (by decide) (by decide)).2 (by decide)).2.1⟩

/-! ## state shape of the ticket operations -/

theorem create_checkout_state (s : St) (u : User) (qty : Quantities) :
    (create_checkout_session s u qty).2 = s ∨
    ∃ e, get_active s = some e ∧ exceededType s u.id e qty = none ∧
      (create_checkout_session s u qty).2
        = { s with
            orders := s.orders ++ mkOrders (ticketsToCreate s e qty)
              s.next_order_id u.id s.next_session_id,
            next_order_id := s.next_order_id + (ticketsToCreate s e qty).length,
            next_session_id := s.next_session_id + 1,
            stripe_sessions_created := s.stripe_sessions_created + 1 } := by
  unfold create_checkout_session
  split
  · left; rfl
  · rename_i e hget
    split
    · left; rfl
    · split
      · left; rfl
      · rename_i hnone
        right
        exact ⟨e, hget, hnone, rfl⟩

theorem checkout_success_state (gw : Gateway) (s : St) (sid? : Option Nat) :
    checkout_success gw s sid? = s ∨
    ∃ sid, sid? = some sid ∧
      checkout_success gw s sid?
        = { s with orders := s.orders.map (fun o =>
            if o.stripe_checkout_session_id = sid ∧ o.status = OrderStatus.pending then
              { o with status := OrderStatus.completed,
                       stripe_payment_intent_id := some (gw.payment_intent sid) }
            else o) } := by
  unfold checkout_success
  split
  · left; rfl
  · rename_i sid
    split
    · left; rfl
    · split
      · right; exact ⟨sid, rfl, rfl⟩
      · left; rfl

theorem transfer_ticket_state (s : St) (u : User) (orderId : Nat)
    (toEmail? : Option Nat) :
    (transfer_ticket s u orderId toEmail?).2.orders = s.orders ∧
    (transfer_ticket s u orderId toEmail?).2.ticket_types = s.ticket_types ∧
    (transfer_ticket s u orderId toEmail?).2.shifts = s.shifts ∧
    ((transfer_ticket s u orderId toEmail?).2.transfers = s.transfers ∨
      ∃ tr : Transfer, tr.id = s.next_transfer_id ∧
        (transfer_ticket s u orderId toEmail?).2.transfers = s.transfers ++ [tr] ∧
        (transfer_ticket s u orderId toEmail?).2.next_transfer_id
          = s.next_transfer_id + 1) ∧
    (s.next_transfer_id ≤ (transfer_ticket s u orderId toEmail?).2.next_transfer_id) ∧
    ((transfer_ticket s u orderId toEmail?).2.next_order_id = s.next_order_id) := by
  unfold transfer_ticket
  split
  · exact ⟨rfl, rfl, rfl, Or.inl rfl, le_refl _, rfl⟩
  · split
    · exact ⟨rfl, rfl, rfl, Or.inl rfl, le_refl _, rfl⟩
    · split
      · exact ⟨rfl, rfl, rfl, Or.inl rfl, le_refl _, rfl⟩
      · split
        · exact ⟨rfl, rfl, rfl, Or.inl rfl, le_refl _, rfl⟩
        · split
          · exact ⟨rfl, rfl, rfl, Or.inl rfl, le_refl _, rfl⟩
          · split
            · exact ⟨rfl, rfl, rfl, Or.inl rfl, le_refl _, rfl⟩
            · split
              · exact ⟨rfl, rfl, rfl, Or.inl rfl, le_refl _, rfl⟩
              · exact ⟨rfl, rfl, rfl, Or.inr ⟨_, rfl, rfl, rfl⟩, by simp, rfl⟩

theorem accept_transfer_state (s : St) (u : User) (tid : Nat) :
    (accept_transfer s u tid).2 = s ∨
    ∃ tr order tt,
      s.transfers.find? (fun t => decide (t.id = tid ∧ t.to_email = u.email ∧
        t.status = TransferStatus.pending)) = some tr ∧
      findOrder s tr.order_id = some order ∧
      findTicketType s order.ticket_type_id = some tt ∧
      countOrders s u.id order.ticket_type_id < tt.max_per_user ∧
      (accept_transfer s u tid).2
        = { s with
            orders := s.orders.map (fun o =>
              if o.id = order.id then { o with owning_user := u.id } else o),
            transfers := s.transfers.map (fun t =>
              if t.id = tr.id then
                { t with to_user := some u.id, status := TransferStatus.accepted }
              else t) } := by
  unfold accept_transfer
  split
  · left; rfl
  · rename_i tr htr
    split
    · left; rfl
    · rename_i order hord
      split
      · left; rfl
      · rename_i tt htt
        split
        · left; rfl
        · rename_i hlt
          right
          exact ⟨tr, order, tt, htr, hord, htt, by omega, rfl⟩

theorem reject_transfer_state (s : St) (u : User) (tid : Nat) :
    (reject_transfer s u tid).2 = s ∨
    ∃ tr : Transfer,
      (reject_transfer s u tid).2
        = { s with transfers := s.transfers.map (fun t =>
            if t.id = tr.id then { t with status := TransferStatus.rejected } else t) } := by
  unfold reject_transfer
  split
  · left; rfl
  · rename_i tr htr
    right
    exact ⟨tr, rfl⟩

theorem rescind_transfer_state (s : St) (u : User) (tid : Nat) :
    (rescind_transfer s u tid).2 = s ∨
    ∃ tr : Transfer,
      (rescind_transfer s u tid).2
        = { s with transfers := s.transfers.filter (fun t => decide (t.id ≠ tr.id)) } := by
  unfold rescind_transfer
  split
  · left; rfl
  · rename_i tr htr
    right
    exact ⟨tr, rfl⟩

theorem map_key_map {α : Type} (key : α → Nat) (f : α → α)
    (hf : ∀ a, key (f a) = key a) (l : List α) :
    (l.map f).map key = l.map key := by
  rw [List.map_map]
  exact List.map_congr_left (fun a _ => hf a)

theorem ticket_types_ticketStep (s : St) (op : TicketOp) :
    (ticketStep s op).ticket_types = s.ticket_types := by
  cases op with
  | checkout u qty =>
    rcases create_checkout_state s u qty with h | ⟨e, _, _, h⟩ <;> simp only [ticketStep, h]
  | finalize gw sid? =>
    rcases checkout_success_state gw s sid? with h | ⟨sid, _, h⟩ <;> simp only [ticketStep, h]
  | initiate u oid em? =>
    exact (transfer_ticket_state s u oid em?).2.1
  | accept u tid =>
    rcases accept_transfer_state s u tid with h | ⟨tr, o, tt, _, _, _, _, h⟩ <;>
      simp only [ticketStep, h]
  | reject u tid =>
    rcases reject_transfer_state s u tid with h | ⟨tr, h⟩ <;> simp only [ticketStep, h]
  | rescind u tid =>
    rcases rescind_transfer_state s u tid with h | ⟨tr, h⟩ <;> simp only [ticketStep, h]

theorem WF_ticketStep (s : St) (op : TicketOp) (hwf : WF s) : WF (ticketStep s op) := by
  obtain ⟨hO, hOb, hT, hTb, htt, hsh⟩ := hwf
  cases op with
  | checkout u qty =>
    rcases create_checkout_state s u qty with h | ⟨e, hget, hnone, h⟩
    · simp only [ticketStep, h]
      exact ⟨hO, hOb, hT, hTb, htt, hsh⟩
    · simp only [ticketStep, h]
      refine ⟨?_, ?_, hT, fun t htm => lt_of_lt_of_le (hTb t htm) (le_refl _), htt, hsh⟩
      · rw [List.map_append, List.nodup_append]
        refine ⟨hO, mkOrders_ids_nodup _ _ _ _, ?_⟩
        intro a ha hb
        obtain ⟨o, ho, rfl⟩ := List.mem_map.mp ha
        obtain ⟨o', ho', he⟩ := List.mem_map.mp hb
        have h1 := hOb o ho
        have h2 := (mkOrders_mem _ _ _ _ o' ho').2.2.2.2.2.1
        omega
      · intro o ho
        rcases List.mem_append.mp ho with ho' | ho'
        · have := hOb o ho'
          simp only
          omega
        · have := (mkOrders_mem _ _ _ _ o ho').2.2.2.2.2.2
          show o.id < s.next_order_id + (ticketsToCreate s e qty).length
          omega
  | finalize gw sid? =>
    rcases checkout_success_state gw s sid? with h | ⟨sid, hsid, h⟩
    · rw [ticketStep, h]
      exact ⟨hO, hOb, hT, hTb, htt, hsh⟩
    · simp only [ticketStep, h]
      have hid : ∀ o : Order,
          (if o.stripe_checkout_session_id = sid ∧ o.status = OrderStatus.pending then
            { o with status := OrderStatus.completed,
                     stripe_payment_intent_id := some (gw.payment_intent sid) }
          else o).id = o.id := by
        intro o
        by_cases hc : o.stripe_checkout_session_id = sid ∧ o.status = OrderStatus.pending <;>
          simp [hc]
      refine ⟨by rw [map_key_map Order.id _ hid]; exact hO, ?_, hT, hTb, htt, hsh⟩
      intro o ho
      obtain ⟨o', ho', rfl⟩ := List.mem_map.mp ho
      rw [hid o']
      exact hOb o' ho'
  | initiate u oid em? =>
    obtain ⟨h1, h2, h3, h4, h5, h6⟩ := transfer_ticket_state s u oid em?
    rw [show ticketStep s (TicketOp.initiate u oid em?)
      = (transfer_ticket s u oid em?).2 from rfl]
    refine ⟨by rw [h1]; exact hO, by rw [h1, h6]; exact hOb, ?_, ?_,
      by rw [h2]; exact htt, by rw [h3]; exact hsh⟩
    · rcases h4 with h4 | ⟨tr, hid, h4, _⟩
      · rw [h4]; exact hT
      · rw [h4, List.map_append, List.nodup_append]
        refine ⟨hT, List.nodup_singleton _, ?_⟩
        intro a ha hb
        obtain ⟨t', ht', rfl⟩ := List.mem_map.mp ha
        simp only [List.map_cons, List.map_nil, List.mem_singleton] at hb
        have := hTb t' ht'
        omega
    · rcases h4 with h4 | ⟨tr, hid, h4, h7⟩
      · intro t htm
        rw [h4] at htm
        exact lt_of_lt_of_le (hTb t htm) h5
      · intro t htm
        rw [h4] at htm
        rw [h7]
        rcases List.mem_append.mp htm with htm' | htm'
        · have := hTb t htm'
          omega
        · simp only [List.mem_singleton] at htm'
          subst htm'
          omega
  | accept u tid =>
    rcases accept_transfer_state s u tid with h | ⟨tr, order, tt, _, _, _, _, h⟩
    · rw [ticketStep, h]
      exact ⟨hO, hOb, hT, hTb, htt, hsh⟩
    · simp only [ticketStep, h]
      have hidO : ∀ o : Order,
          (if o.id = order.id then { o with owning_user := u.id } else o).id = o.id := by
        intro o
        by_cases hc : o.id = order.id <;> simp [hc]
      have hidT : ∀ t : Transfer,
          (if t.id = tr.id then
            { t with to_user := some u.id, status := TransferStatus.accepted }
          else t).id = t.id := by
        intro t
        by_cases hc : t.id = tr.id <;> simp [hc]
      refine ⟨by rw [map_key_map Order.id _ hidO]; exact hO, ?_,
        by rw [map_key_map Transfer.id _ hidT]; exact hT, ?_, htt, hsh⟩
      · intro o ho
        obtain ⟨o', ho', rfl⟩ := List.mem_map.mp ho
        rw [hidO o']
        exact hOb o' ho'
      · intro t htm
        obtain ⟨t', ht', rfl⟩ := List.mem_map.mp htm
        rw [hidT t']
        exact hTb t' ht'
  | reject u tid =>
    rcases reject_transfer_state s u tid with h | ⟨tr, h⟩
    · rw [ticketStep, h]
      exact ⟨hO, hOb, hT, hTb, htt, hsh⟩
    · simp only [ticketStep, h]
      have hidT : ∀ t : Transfer,
          (if t.id = tr.id then { t with status := TransferStatus.rejected } else t).id
            = t.id := by
        intro t
        by_cases hc : t.id = tr.id <;> simp [hc]
      refine ⟨hO, hOb, by rw [map_key_map Transfer.id _ hidT]; exact hT, ?_, htt, hsh⟩
      intro t htm
      obtain ⟨t', ht', rfl⟩ := List.mem_map.mp htm
      rw [hidT t']
      exact hTb t' ht'
  | rescind u tid =>
    rcases rescind_transfer_state s u tid with h | ⟨tr, h⟩
    · rw [ticketStep, h]
      exact ⟨hO, hOb, hT, hTb, htt, hsh⟩
    · simp only [ticketStep, h]
      refine ⟨hO, hOb, ?_, ?_, htt, hsh⟩
      · exact List.Nodup.sublist (List.Sublist.map _ (List.filter_sublist _)) hT
      · intro t htm
        exact hTb t (List.mem_of_mem_filter htm)

/-- Each single ticket operation keeps the per-user per-type quota count of
pending-plus-completed orders within max_per_user. -/
theorem count_ticketStep_le (s : St) (op : TicketOp) (uid : Nat) (t : TicketType)
    (hwf : WF s) (ht : t ∈ s.ticket_types)
    (hinv : countOrders s uid t.id ≤ t.max_per_user) :
    countOrders (ticketStep s op) uid t.id ≤ t.max_per_user := by
  obtain ⟨hO, hOb, hT, hTb, htt, hsh⟩ := hwf
  cases op with
  | checkout u qty =>
    rcases create_checkout_state s u qty with h | ⟨e, hget, hnone, h⟩
    · simp only [ticketStep, h]
      exact hinv
    · simp only [ticketStep, h]
      show (s.orders ++ mkOrders (ticketsToCreate s e qty) s.next_order_id u.id
          s.next_session_id).countP
        (fun o => decide (o.ticket_type_id = t.id ∧ o.owning_user = uid ∧
          (o.status = OrderStatus.completed ∨ o.status = OrderStatus.pending)))
        ≤ t.max_per_user
      rw [List.countP_append, countP_mkOrders_quota]
      by_cases hu : u.id = uid
      · rw [if_pos hu]
        by_cases hreq : (ticketsToCreate s e qty).countP
            (fun x => decide (x.id = t.id)) = 0
        · rw [hreq]
          unfold countOrders at hinv
          omega
        · obtain ⟨tc, htc, hid⟩ :=
            List.countP_pos_iff.mp (Nat.pos_of_ne_zero hreq)
          rw [decide_eq_true_eq] at hid
          obtain ⟨t'', ht'', htc'⟩ := by
            unfold ticketsToCreate at htc
            exact List.mem_flatMap.mp htc
          have htct'' : tc = t'' := by
            by_cases hq : 0 < qty t''.id
            · rw [if_pos hq] at htc'
              exact (List.mem_replicate.mp htc').2
            · rw [if_neg hq] at htc'
              cases htc'
          have ht''s : t'' ∈ s.ticket_types := List.mem_of_mem_filter ht''
          have htt'' : t = t'' :=
            eq_of_mem_of_nodup_key htt ht ht''s (by rw [← hid, htct''])
          rw [exceededType, List.find?_eq_none] at hnone
          have hspec := hnone t'' ht''
          rw [decide_eq_true_eq] at hspec
          rw [← htt''] at hspec
          unfold requestedCount at hspec
          unfold countOrders at hinv hspec
          subst hu
          omega
      · rw [if_neg hu]
        unfold countOrders at hinv
        omega
  | finalize gw sid? =>
    rcases checkout_success_state gw s sid? with h | ⟨sid, hsid, h⟩
    · simp only [ticketStep, h]
      exact hinv
    · simp only [ticketStep, h]
      show (s.orders.map (fun o =>
          if o.stripe_checkout_session_id = sid ∧ o.status = OrderStatus.pending then
            { o with status := OrderStatus.completed,
                     stripe_payment_intent_id := some (gw.payment_intent sid) }
          else o)).countP
        (fun o => decide (o.ticket_type_id = t.id ∧ o.owning_user = uid ∧
          (o.status = OrderStatus.completed ∨ o.status = OrderStatus.pending)))
        ≤ t.max_per_user
      rw [List.countP_map]
      rw [List.countP_congr (fun o _ => ?_)]
      · exact hinv
      · simp only [Function.comp_apply]
        by_cases hc : o.stripe_checkout_session_id = sid ∧ o.status = OrderStatus.pending
        · rw [if_pos hc]
          constructor
          · intro hpx
            rw [decide_eq_true_eq] at hpx ⊢
            exact ⟨hpx.1, hpx.2.1, Or.inr hc.2⟩
          · intro hpx
            rw [decide_eq_true_eq] at hpx ⊢
            exact ⟨hpx.1, hpx.2.1, Or.inl rfl⟩
        · rw [if_neg hc]
  | initiate u oid em? =>
    have h1 := (transfer_ticket_state s u oid em?).1
    show countOrders (transfer_ticket s u oid em?).2 uid t.id ≤ t.max_per_user
    unfold countOrders
    rw [h1]
    exact hinv
  | accept u tid =>
    rcases accept_transfer_state s u tid with h | ⟨tr, order, tt', htr, hord, htt', hlt, h⟩
    · simp only [ticketStep, h]
      exact hinv
    · simp only [ticketStep, h]
      have horder_mem : order ∈ s.orders := List.mem_of_find?_eq_some hord
      show (s.orders.map (fun o =>
          if o.id = order.id then { o with owning_user := u.id } else o)).countP
        (fun o => decide (o.ticket_type_id = t.id ∧ o.owning_user = uid ∧
          (o.status = OrderStatus.completed ∨ o.status = OrderStatus.pending)))
        ≤ t.max_per_user
      rw [List.countP_map]
      by_cases hcase : uid = u.id ∧ t.id = order.ticket_type_id
      · have htt'_mem : tt' ∈ s.ticket_types := List.mem_of_find?_eq_some htt'
        have htt'_id : tt'.id = order.ticket_type_id := by
          have := List.find?_some htt'
          rwa [decide_eq_true_eq] at this
        have htteq : t = tt' :=
          eq_of_mem_of_nodup_key htt ht htt'_mem (by rw [htt'_id, ← hcase.2])
        have step1 : (s.orders.countP ((fun o => decide (o.ticket_type_id = t.id ∧
              o.owning_user = uid ∧ (o.status = OrderStatus.completed ∨
              o.status = OrderStatus.pending))) ∘ (fun o =>
              if o.id = order.id then { o with owning_user := u.id } else o)))
            ≤ s.orders.countP (fun o => (decide (o.ticket_type_id = t.id ∧
              o.owning_user = uid ∧ (o.status = OrderStatus.completed ∨
              o.status = OrderStatus.pending)) || decide (o.id = order.id))) := by
          refine List.countP_mono_left (fun o ho hp => ?_)
          simp only [Function.comp_apply] at hp
          by_cases hid : o.id = order.id
          · simp [hid]
          · rw [if_neg hid] at hp
            simp [hp]
        have step2 := countP_or_le
          (fun o => decide (o.ticket_type_id = t.id ∧ o.owning_user = uid ∧
            (o.status = OrderStatus.completed ∨ o.status = OrderStatus.pending)))
          (fun o => decide (o.id = order.id)) s.orders
        have step3 := countP_key_le_one Order.id order.id s.orders hO
        have hcount : s.orders.countP (fun o => decide (o.ticket_type_id = t.id ∧
            o.owning_user = uid ∧ (o.status = OrderStatus.completed ∨
            o.status = OrderStatus.pending))) < tt'.max_per_user := by
          unfold countOrders at hlt
          rw [hcase.1, hcase.2]
          exact hlt
        rw [← htteq] at hcount
        omega
      · refine le_trans (List.countP_mono_left (fun o ho hp => ?_)) hinv
        simp only [Function.comp_apply] at hp
        by_cases hid : o.id = order.id
        · have hoeq : o = order := eq_of_mem_of_nodup_key hO ho horder_mem hid
          subst hoeq
          rw [if_pos hid] at hp
          rw [decide_eq_true_eq] at hp
          exact absurd ⟨hp.2.1.symm, hp.1.symm⟩ hcase
        · rw [if_neg hid] at hp
          exact hp
  | reject u tid =>
    rcases reject_transfer_state s u tid with h | ⟨tr, h⟩
    · simp only [ticketStep, h]
      exact hinv
    · simp only [ticketStep, h]
      exact hinv
  | rescind u tid =>
    rcases rescind_transfer_state s u tid with h | ⟨tr, h⟩
    · simp only [ticketStep, h]
      exact hinv
    · simp only [ticketStep, h]
      exact hinv

/-- C1: for every user and ticket type of the store, if the user's count of
pending-plus-completed orders of that type is within max_per_user, then any
sequence of sequentially executed core ticket operations (checkout-session
creation, checkout finalization, transfer initiate/accept/reject/rescind)
keeps it within max_per_user. -/
theorem ticket_quota_invariant (s : St) (ops : List TicketOp) (uid : Nat)
    (t : TicketType) (hwf : WF s) (ht : t ∈ s.ticket_types)
    (hinv : countOrders s uid t.id ≤ t.max_per_user) :
    countOrders (List.foldl ticketStep s ops) uid t.id ≤ t.max_per_user := by
  induction ops generalizing s with
  | nil => exact hinv
  | cons op ops ih =>
    simp only [List.foldl_cons]
    exact ih (ticketStep s op) (WF_ticketStep s op hwf)
      (by rw [ticket_types_ticketStep]; exact ht)
      (count_ticketStep_le s op uid t hwf ht hinv)

theorem ticket_quota_invariant_witness :
    (WF stTransfer ∧ (⟨1, 1, 2⟩ : TicketType) ∈ stTransfer.ticket_types ∧
      countOrders stTransfer 2 1 ≤ 2) ∧
    countOrders (List.foldl ticketStep stTransfer
      [TicketOp.checkout ⟨2, 20⟩ (fun i => if i = 1 then 1 else 0),
       TicketOp.accept ⟨2, 20⟩ 1,
       TicketOp.checkout ⟨2, 20⟩ (fun i => if i = 1 then 1 else 0)]) 2 1 ≤ 2 :=
  ⟨⟨by decide, by decide, by decide⟩,
    ticket_quota_invariant stTransfer
      [TicketOp.checkout ⟨2, 20⟩ (fun i => if i = 1 then 1 else 0),
       TicketOp.accept ⟨2, 20⟩ 1,
       TicketOp.checkout ⟨2, 20⟩ (fun i => if i = 1 then 1 else 0)]
      2 ⟨1, 1, 2⟩ (by decide) (by decide) (by decide)⟩
